import Mathlib

/-!
Verification development for the CBOR codec in `internal/cbor` of
cryptogarageinc/cardano-go (a vendored copy of a Go CBOR library).

The decoder (`decode.go`) is embedded shallowly:

* Go byte slices are `List Nat` (each element a byte value).
* Go strings are byte lists as well (a Go string is an immutable byte
  sequence; `string(b)` is the identity on bytes).
* The byte-level cursor (`decoder.data` and `decoder.off`) is embedded
  directly for the well-formedness pass and head parsing (`getHead`).
* For the materialization functions (`parseToValue`, `parse`,
  `parseMapToStruct`, ...), the already-validated byte stream is
  represented by the structured CBOR item it denotes (`CborItem`); the
  cursor over the remaining elements of an array/map becomes the list of
  remaining element items, and `d.skip()` on an element becomes dropping
  that item.  Indefinite-length items carry the same element lists as
  definite ones (the Go code only uses the length difference for loop
  form and preallocation, never for per-element behaviour); indefinite
  string chunks are concatenated.
* Go's `reflect.Value` targets are embedded as the explicit value tree
  `GoValue`; in-place mutation becomes returning the updated value.
  Only the Go kinds exercised by the code under verification are
  modelled (64-bit and 8-bit integers among the integer kinds, direct
  struct fields); `CanSet` is always true in the model (all modelled
  targets are addressable).
* The type cache (`getTypeInfo`, `getDecodingStructType` in the missing
  cache source file) is replaced by the `GoType` tree itself: struct
  field lists and the `toarray` flag are stored in the type, and the
  special-type classification is the evident one (empty interface, time,
  tag wrapper).
-/

namespace Cbor

/-- DupMapKeyMode specifies how to enforce duplicate map key
(decode.go, `DupMapKeyMode`). -/
inductive DupMapKeyMode where
  | quiet
  | enforcedAPF
  deriving DecidableEq, Repr

/-- IndefLengthMode specifies whether to allow indefinite length items
(decode.go, `IndefLengthMode`). -/
inductive IndefLengthMode where
  | allowed
  | forbidden
  deriving DecidableEq, Repr

/-- TagsMode specifies whether to allow CBOR tags (decode.go, `TagsMode`). -/
inductive TagsMode where
  | allowed
  | forbidden
  deriving DecidableEq, Repr

/-- IntDecMode specifies which Go int type should be used when decoding a
CBOR int to Go `any` (decode.go, `IntDecMode`). -/
inductive IntDecMode where
  | convertNone
  | convertSigned
  deriving DecidableEq, Repr

/-- MapKeyByteStringMode specifies whether to use a wrapper object for byte
strings used as map keys (decode.go, `MapKeyByteStringMode`). -/
inductive MapKeyByteStringMode where
  | fail
  | wrap
  deriving DecidableEq, Repr

/-- DecTagMode specifies how decoding treats tag numbers on `time.Time`
content.  Modelled from the spec: the `DecTagMode` declaration lives in a
source file absent from the snapshot; `decode.go` uses the three values
`DecTagIgnored`, `DecTagOptional` and `DecTagRequired` (`parseToTime`). -/
inductive DecTagMode where
  | ignored
  | optional
  | required
  deriving DecidableEq, Repr

/-- ExtraDecErrorUnknownField is the only extra-error bit (decode.go,
`ExtraDecErrorCond`); the condition mask is embedded as a `Nat`. -/
def extraDecErrorUnknownField : Nat := 1

/-- DecOptions specifies decoding options (decode.go, `DecOptions`).
The `DefaultMapType` option and registered tag sets are not modelled
(no claim depends on them; the embedded mode has no registered tags,
matching `defaultDecMode`). -/
structure DecOptions where
  dupMapKey : DupMapKeyMode := .quiet
  timeTag : DecTagMode := .ignored
  maxNestedLevels : Nat := 0
  maxArrayElements : Nat := 0
  maxMapPairs : Nat := 0
  indefLength : IndefLengthMode := .allowed
  tagsMd : TagsMode := .allowed
  intDec : IntDecMode := .convertNone
  mapKeyByteString : MapKeyByteStringMode := .fail
  extraReturnErrors : Nat := 0
  deriving DecidableEq, Repr

/-- DecMode with immutable validated options (decode.go, `decMode`). -/
structure DecMode where
  dupMapKey : DupMapKeyMode
  timeTag : DecTagMode
  maxNestedLevels : Nat
  maxArrayElements : Nat
  maxMapPairs : Nat
  indefLength : IndefLengthMode
  tagsMd : TagsMode
  intDec : IntDecMode
  mapKeyByteString : MapKeyByteStringMode
  extraReturnErrors : Nat
  deriving DecidableEq, Repr

/-- Limit constants of decode.go (`defaultMaxArrayElements` and friends). -/
def defaultMaxArrayElements : Nat := 131072

/-- Minimum configurable array element limit (decode.go). -/
def minMaxArrayElements : Nat := 16

/-- Maximum configurable array element limit (decode.go). -/
def maxMaxArrayElements : Nat := 2147483647

/-- Default map pair limit (decode.go). -/
def defaultMaxMapPairs : Nat := 131072

/-- Minimum configurable map pair limit (decode.go). -/
def minMaxMapPairs : Nat := 16

/-- Maximum configurable map pair limit (decode.go). -/
def maxMaxMapPairs : Nat := 2147483647

/-- Validating profile construction (decode.go, `DecOptions.decMode`): the
enum fields of the embedded `DecOptions` are valid by construction, so only
the numeric range checks and default filling remain.  `none` stands for the
construction error. -/
def DecOptions.decMode (opts : DecOptions) : Option DecMode :=
  if opts.maxNestedLevels = 0 ∨ (4 ≤ opts.maxNestedLevels ∧ opts.maxNestedLevels ≤ 256) then
    if opts.maxArrayElements = 0 ∨
        (minMaxArrayElements ≤ opts.maxArrayElements ∧ opts.maxArrayElements ≤ maxMaxArrayElements) then
      if opts.maxMapPairs = 0 ∨
          (minMaxMapPairs ≤ opts.maxMapPairs ∧ opts.maxMapPairs ≤ maxMaxMapPairs) then
        if opts.extraReturnErrors < 2 then
          some {
            dupMapKey := opts.dupMapKey
            timeTag := opts.timeTag
            maxNestedLevels := if opts.maxNestedLevels = 0 then 32 else opts.maxNestedLevels
            maxArrayElements := if opts.maxArrayElements = 0 then defaultMaxArrayElements else opts.maxArrayElements
            maxMapPairs := if opts.maxMapPairs = 0 then defaultMaxMapPairs else opts.maxMapPairs
            indefLength := opts.indefLength
            tagsMd := opts.tagsMd
            intDec := opts.intDec
            mapKeyByteString := opts.mapKeyByteString
            extraReturnErrors := opts.extraReturnErrors }
        else none
      else none
    else none
  else none

/-- The package-default decoding mode (decode.go, `defaultDecMode`). -/
def defaultDecMode : DecMode :=
  { dupMapKey := .quiet
    timeTag := .ignored
    maxNestedLevels := 32
    maxArrayElements := defaultMaxArrayElements
    maxMapPairs := defaultMaxMapPairs
    indefLength := .allowed
    tagsMd := .allowed
    intDec := .convertNone
    mapKeyByteString := .fail
    extraReturnErrors := 0 }

/-- Structured CBOR data item.  This is the denotation of a well-formed
byte-level item: major types 0/1 carry the head value (`nint v` denotes the
integer `-(1+v)`), strings carry their (chunk-concatenated) bytes, arrays
and maps carry their element lists, major 7 splits into the simple values,
booleans, null, undefined and floats (a float is kept as its wire width in
bytes together with its bits; no claim depends on float semantics). -/
inductive CborItem where
  | uint (v : Nat)
  | nint (v : Nat)
  | bytes (b : List Nat)
  | text (b : List Nat)
  | array (items : List CborItem)
  | map (entries : List (CborItem × CborItem))
  | tag (n : Nat) (content : CborItem)
  | bool (b : Bool)
  | null
  | undefined
  | simple (v : Nat)
  | float (w : Nat) (bits : Nat)

/-- CBOR major type classification (decode.go, `cborType`), with the
primitives class covering all of major type 7. -/
inductive CborT where
  | posInt
  | negInt
  | byteString
  | textString
  | array
  | map
  | tag
  | primitives
  deriving DecidableEq, Repr

/-- Major type of an item (decode.go, `decoder.nextCBORType`). -/
def CborItem.cborT : CborItem → CborT
  | .uint _ => .posInt
  | .nint _ => .negInt
  | .bytes _ => .byteString
  | .text _ => .textString
  | .array _ => .array
  | .map _ => .map
  | .tag _ _ => .tag
  | .bool _ => .primitives
  | .null => .primitives
  | .undefined => .primitives
  | .simple _ => .primitives
  | .float _ _ => .primitives

/-- Detection of CBOR null (0xf6) and undefined (0xf7)
(decode.go, `decoder.nextCBORNil`). -/
def CborItem.isNil : CborItem → Bool
  | .null => true
  | .undefined => true
  | _ => false

/-- Tag number of the self-described CBOR tag (decode.go,
`selfDescribedCBORTagNum`). -/
def selfDescribedCBORTagNum : Nat := 55799

/-- Stripping of leading self-described CBOR tag numbers (the head-stripping
loops at decode.go lines 626-634 and 939-949). -/
def strip55799 : CborItem → CborItem
  | .tag n c => if n = selfDescribedCBORTagNum then strip55799 c else .tag n c
  | i => i

/-- Representation of a Go float64 value by its origin: either the wire
float it was widened from (width in bytes and raw bits) or the integer it
was converted from.  No claim depends on float arithmetic, so float values
are kept symbolic; two representations are equal exactly when their origins
are (a mixed integer/float key pair denoting the same real number is not
identified, a corner no claim exercises). -/
inductive FloatRep where
  | wire (w : Nat) (bits : Nat)
  | ofInt (v : Int)
  deriving DecidableEq, Repr

/-- Generic decoded value, the model of the Go `any` results of
`decoder.parse` (`nil` is the nil interface; big integers, times, tags and
the `ByteString` map-key wrapper appear exactly as in decode.go's generic
mapping).  A time value is represented by its decoded wire content
(`time .nil` is the zero `time.Time`); RFC3339 text parsing of the Go
standard library is not re-modelled, see `parseToTime`. -/
inductive GenValue where
  | nil
  | uint (v : Nat)
  | int (v : Int)
  | bigInt (v : Int)
  | bytes (b : List Nat)
  | str (s : List Nat)
  | bool (b : Bool)
  | float (r : FloatRep)
  | arr (vs : List GenValue)
  | map (es : List (GenValue × GenValue))
  | time (content : GenValue)
  | tagged (n : Nat) (content : GenValue)
  | byteString (b : List Nat)

mutual

/-- Go target types as resolved by the (absent) type cache: the kinds the
decoder dispatches on, with struct metadata (ordered field list and the
`toarray` marker) stored in the type, mirroring `getDecodingStructType`
output.  Only the integer kinds int64, uint64 and uint8 are modelled. -/
inductive GoType where
  | int64T
  | uint64T
  | uint8T
  | stringT
  | boolT
  | float64T
  | ptrT (elem : GoType)
  | sliceT (elem : GoType)
  | arrayT (n : Nat) (elem : GoType)
  | mapT (key : GoType) (value : GoType)
  | ifaceT
  | structT (fields : List GoField) (toArray : Bool)
  | timeT
  | bigIntT
  | tagT

/-- Struct field descriptor (the `field` records produced by the struct
field resolver): effective name, integer-key data and field type.  Only
direct fields are modelled (`len(f.idx) == 1`); the field's position in the
struct is its index. -/
inductive GoField where
  | mk (name : List Nat) (keyAsInt : Bool) (nameAsInt : Int) (typ : GoType)

end

/-- Name of a struct field. -/
def GoField.name : GoField → List Nat
  | .mk n _ _ _ => n

/-- Integer-key flag of a struct field (`keyasint` tag option). -/
def GoField.keyAsInt : GoField → Bool
  | .mk _ k _ _ => k

/-- Integer key of a struct field. -/
def GoField.nameAsInt : GoField → Int
  | .mk _ _ n _ => n

/-- Type of a struct field. -/
def GoField.typ : GoField → GoType
  | .mk _ _ _ t => t

mutual

/-- Go target values (the model of `reflect.Value` decode targets).  Nilable
kinds carry an `Option`; a slice/map/pointer value stores its element type so
that allocation (`reflect.New`, `reflect.MakeSlice`, `reflect.MakeMap`) can
build zero values.  An interface value holds a generic value (the model only
has the empty interface); a time value holds its content representation. -/
inductive GoValue where
  | intV (v : Int)
  | uintV (v : Nat)
  | uint8V (v : Nat)
  | stringV (s : List Nat)
  | boolV (b : Bool)
  | floatV (r : FloatRep)
  | ptrV (elem : GoType) (v : Option GoValue)
  | sliceV (elem : GoType) (v : Option (List GoValue))
  | arrayV (elem : GoType) (vals : List GoValue)
  | mapV (keyT : GoType) (elemT : GoType) (v : Option (List (GoValue × GoValue)))
  | ifaceV (v : Option GenValue)
  | structV (fields : List GoField) (toArray : Bool) (vals : List GoValue)
  | timeV (content : GenValue)
  | bigIntV (v : Int)
  | tagV (num : Nat) (content : GenValue)

end

mutual

/-- Zero value of a Go type (`reflect.Zero` semantics). -/
def zeroValue : GoType → GoValue
  | .int64T => .intV 0
  | .uint64T => .uintV 0
  | .uint8T => .uint8V 0
  | .stringT => .stringV []
  | .boolT => .boolV false
  | .float64T => .floatV (.ofInt 0)
  | .ptrT t => .ptrV t none
  | .sliceT t => .sliceV t none
  | .arrayT n t => .arrayV t (List.replicate n (zeroValue t))
  | .mapT kt vt => .mapV kt vt none
  | .ifaceT => .ifaceV none
  | .structT fs ta => .structV fs ta (zeroFields fs)
  | .timeT => .timeV .nil
  | .bigIntT => .bigIntV 0
  | .tagT => .tagV 0 .nil

/-- Zero values of a struct's fields. -/
def zeroFields : List GoField → List GoValue
  | [] => []
  | .mk _ _ _ t :: fs => zeroValue t :: zeroFields fs

end

mutual

/-- Boolean equality on Go types. -/
def GoType.beq : GoType → GoType → Bool
  | .int64T, .int64T => true
  | .uint64T, .uint64T => true
  | .uint8T, .uint8T => true
  | .stringT, .stringT => true
  | .boolT, .boolT => true
  | .float64T, .float64T => true
  | .ptrT a, .ptrT b => GoType.beq a b
  | .sliceT a, .sliceT b => GoType.beq a b
  | .arrayT n a, .arrayT m b => n == m && GoType.beq a b
  | .mapT k v, .mapT l w => GoType.beq k l && GoType.beq v w
  | .ifaceT, .ifaceT => true
  | .structT fs ta, .structT gs tb => beqFieldL fs gs && ta == tb
  | .timeT, .timeT => true
  | .bigIntT, .bigIntT => true
  | .tagT, .tagT => true
  | _, _ => false

/-- Boolean equality on struct fields. -/
def GoField.beq : GoField → GoField → Bool
  | .mk n k i t, .mk m l j u => n == m && k == l && i == j && GoType.beq t u

/-- Boolean equality on field lists. -/
def beqFieldL : List GoField → List GoField → Bool
  | [], [] => true
  | a :: as', b :: bs' => GoField.beq a b && beqFieldL as' bs'
  | _, _ => false

end

set_option maxHeartbeats 1600000 in
mutual

theorem GoType.beqT_iff : ∀ a b : GoType, GoType.beq a b = true ↔ a = b
  | .int64T, b => by cases b <;> simp [GoType.beq]
  | .uint64T, b => by cases b <;> simp [GoType.beq]
  | .uint8T, b => by cases b <;> simp [GoType.beq]
  | .stringT, b => by cases b <;> simp [GoType.beq]
  | .boolT, b => by cases b <;> simp [GoType.beq]
  | .float64T, b => by cases b <;> simp [GoType.beq]
  | .ptrT a, b => by
      cases b <;> simp [GoType.beq]
      exact GoType.beqT_iff a _
  | .sliceT a, b => by
      cases b <;> simp [GoType.beq]
      exact GoType.beqT_iff a _
  | .arrayT n a, b => by
      cases b <;> simp [GoType.beq]
      intro _
      exact GoType.beqT_iff a _
  | .mapT k v, b => by
      cases b <;> simp [GoType.beq]
      exact and_congr (GoType.beqT_iff k _) (GoType.beqT_iff v _)
  | .ifaceT, b => by cases b <;> simp [GoType.beq]
  | .structT fs ta, b => by
      cases b <;> simp [GoType.beq]
      intro _
      exact beqFieldL_iff fs _
  | .timeT, b => by cases b <;> simp [GoType.beq]
  | .bigIntT, b => by cases b <;> simp [GoType.beq]
  | .tagT, b => by cases b <;> simp [GoType.beq]

theorem GoField.beqFld_iff : ∀ a b : GoField, GoField.beq a b = true ↔ a = b
  | .mk n k i t, .mk m l j u => by
      simp [GoField.beq, GoType.beqT_iff t u, and_assoc]

theorem beqFieldL_iff : ∀ a b : List GoField, beqFieldL a b = true ↔ a = b
  | [], b => by cases b <;> simp [beqFieldL]
  | x :: xs, b => by
      cases b with
      | nil => simp [beqFieldL]
      | cons y ys =>
          simp only [beqFieldL, Bool.and_eq_true, GoField.beqFld_iff x y, beqFieldL_iff xs ys,
            List.cons.injEq]

end

instance : DecidableEq GoType :=
  fun a b => decidable_of_iff _ (GoType.beqT_iff a b)

instance : DecidableEq GoField :=
  fun a b => decidable_of_iff _ (GoField.beqFld_iff a b)

mutual

/-- Boolean equality on generic values (Go interface-value equality as used
for map keys and duplicate-key sets). -/
def GenValue.beq : GenValue → GenValue → Bool
  | .nil, .nil => true
  | .uint a, .uint b => a == b
  | .int a, .int b => a == b
  | .bigInt a, .bigInt b => a == b
  | .bytes a, .bytes b => a == b
  | .str a, .str b => a == b
  | .bool a, .bool b => a == b
  | .float a, .float b => a == b
  | .arr a, .arr b => beqL a b
  | .map a, .map b => beqPL a b
  | .time a, .time b => GenValue.beq a b
  | .tagged n a, .tagged m b => n == m && GenValue.beq a b
  | .byteString a, .byteString b => a == b
  | _, _ => false

/-- Boolean equality on lists of generic values. -/
def beqL : List GenValue → List GenValue → Bool
  | [], [] => true
  | a :: as', b :: bs' => GenValue.beq a b && beqL as' bs'
  | _, _ => false

/-- Boolean equality on lists of generic key-value pairs. -/
def beqPL : List (GenValue × GenValue) → List (GenValue × GenValue) → Bool
  | [], [] => true
  | (k, v) :: as', (l, w) :: bs' => GenValue.beq k l && GenValue.beq v w && beqPL as' bs'
  | _, _ => false

end

mutual

theorem GenValue.beqG_iff : ∀ a b : GenValue, GenValue.beq a b = true ↔ a = b
  | .nil, b => by cases b <;> simp [GenValue.beq]
  | .uint a, b => by cases b <;> simp [GenValue.beq]
  | .int a, b => by cases b <;> simp [GenValue.beq]
  | .bigInt a, b => by cases b <;> simp [GenValue.beq]
  | .bytes a, b => by cases b <;> simp [GenValue.beq]
  | .str a, b => by cases b <;> simp [GenValue.beq]
  | .bool a, b => by cases b <;> simp [GenValue.beq]
  | .float a, b => by cases b <;> simp [GenValue.beq]
  | .arr a, b => by
      cases b <;> simp [GenValue.beq]
      exact beqL_iff a _
  | .map a, b => by
      cases b <;> simp [GenValue.beq]
      exact beqPL_iff a _
  | .time a, b => by
      cases b <;> simp [GenValue.beq]
      exact GenValue.beqG_iff a _
  | .tagged n a, b => by
      cases b <;> simp [GenValue.beq]
      intro _
      exact GenValue.beqG_iff a _
  | .byteString a, b => by cases b <;> simp [GenValue.beq]

theorem beqL_iff : ∀ a b : List GenValue, beqL a b = true ↔ a = b
  | [], b => by cases b <;> simp [beqL]
  | x :: xs, b => by
      cases b with
      | nil => simp [beqL]
      | cons y ys =>
          simp only [beqL, Bool.and_eq_true, GenValue.beqG_iff x y, beqL_iff xs ys,
            List.cons.injEq]

theorem beqPL_iff : ∀ a b : List (GenValue × GenValue), beqPL a b = true ↔ a = b
  | [], b => by cases b <;> simp [beqPL]
  | (k, v) :: xs, b => by
      cases b with
      | nil => simp [beqPL]
      | cons y ys =>
          obtain ⟨l, w⟩ := y
          simp only [beqPL, Bool.and_eq_true, GenValue.beqG_iff k l, GenValue.beqG_iff v w,
            beqPL_iff xs ys, List.cons.injEq, Prod.mk.injEq, and_assoc]

end

instance : DecidableEq GenValue :=
  fun a b => decidable_of_iff _ (GenValue.beqG_iff a b)

instance : BEq GenValue := ⟨GenValue.beq⟩

instance : LawfulBEq GenValue where
  eq_of_beq h := (GenValue.beqG_iff _ _).mp h
  rfl := (GenValue.beqG_iff _ _).mpr rfl

mutual

/-- Boolean equality on CBOR items. -/
def CborItem.beq : CborItem → CborItem → Bool
  | .uint a, .uint b => a == b
  | .nint a, .nint b => a == b
  | .bytes a, .bytes b => a == b
  | .text a, .text b => a == b
  | .array a, .array b => beqIL a b
  | .map a, .map b => beqIPL a b
  | .tag n a, .tag m b => n == m && CborItem.beq a b
  | .bool a, .bool b => a == b
  | .null, .null => true
  | .undefined, .undefined => true
  | .simple a, .simple b => a == b
  | .float w a, .float x b => w == x && a == b
  | _, _ => false

/-- Boolean equality on item lists. -/
def beqIL : List CborItem → List CborItem → Bool
  | [], [] => true
  | a :: as', b :: bs' => CborItem.beq a b && beqIL as' bs'
  | _, _ => false

/-- Boolean equality on item pair lists. -/
def beqIPL : List (CborItem × CborItem) → List (CborItem × CborItem) → Bool
  | [], [] => true
  | (k, v) :: as', (l, w) :: bs' => CborItem.beq k l && CborItem.beq v w && beqIPL as' bs'
  | _, _ => false

end

mutual

theorem CborItem.beqItem_iff : ∀ a b : CborItem, CborItem.beq a b = true ↔ a = b
  | .uint a, b => by cases b <;> simp [CborItem.beq]
  | .nint a, b => by cases b <;> simp [CborItem.beq]
  | .bytes a, b => by cases b <;> simp [CborItem.beq]
  | .text a, b => by cases b <;> simp [CborItem.beq]
  | .array a, b => by
      cases b <;> simp [CborItem.beq]
      exact beqIL_iff a _
  | .map a, b => by
      cases b <;> simp [CborItem.beq]
      exact beqIPL_iff a _
  | .tag n a, b => by
      cases b <;> simp [CborItem.beq]
      intro _
      exact CborItem.beqItem_iff a _
  | .bool a, b => by cases b <;> simp [CborItem.beq]
  | .null, b => by cases b <;> simp [CborItem.beq]
  | .undefined, b => by cases b <;> simp [CborItem.beq]
  | .simple a, b => by cases b <;> simp [CborItem.beq]
  | .float w a, b => by cases b <;> simp [CborItem.beq]

theorem beqIL_iff : ∀ a b : List CborItem, beqIL a b = true ↔ a = b
  | [], b => by cases b <;> simp [beqIL]
  | x :: xs, b => by
      cases b with
      | nil => simp [beqIL]
      | cons y ys =>
          simp only [beqIL, Bool.and_eq_true, CborItem.beqItem_iff x y, beqIL_iff xs ys,
            List.cons.injEq]

theorem beqIPL_iff : ∀ a b : List (CborItem × CborItem), beqIPL a b = true ↔ a = b
  | [], b => by cases b <;> simp [beqIPL]
  | (k, v) :: xs, b => by
      cases b with
      | nil => simp [beqIPL]
      | cons y ys =>
          obtain ⟨l, w⟩ := y
          simp only [beqIPL, Bool.and_eq_true, CborItem.beqItem_iff k l, CborItem.beqItem_iff v w,
            beqIPL_iff xs ys, List.cons.injEq, Prod.mk.injEq, and_assoc]

end

instance : DecidableEq CborItem :=
  fun a b => decidable_of_iff _ (CborItem.beqItem_iff a b)

/-- Continuation byte test for UTF-8 validation. -/
def utf8Cont (b : Nat) : Bool := 0x80 ≤ b && b ≤ 0xbf

/-- UTF-8 validity of a byte sequence (the `utf8.Valid` check used by
`parseTextString`): rejects truncated sequences, overlong encodings,
surrogates and code points above U+10FFFF, per the Go standard library. -/
def utf8Valid : List Nat → Bool
  | [] => true
  | b :: rest =>
    if b ≤ 0x7f then utf8Valid rest
    else if 0xc2 ≤ b && b ≤ 0xdf then
      match rest with
      | c :: r => utf8Cont c && utf8Valid r
      | [] => false
    else if b = 0xe0 then
      match rest with
      | c :: d :: r => (0xa0 ≤ c && c ≤ 0xbf) && utf8Cont d && utf8Valid r
      | _ => false
    else if (0xe1 ≤ b && b ≤ 0xec) || (0xee ≤ b && b ≤ 0xef) then
      match rest with
      | c :: d :: r => utf8Cont c && utf8Cont d && utf8Valid r
      | _ => false
    else if b = 0xed then
      match rest with
      | c :: d :: r => (0x80 ≤ c && c ≤ 0x9f) && utf8Cont d && utf8Valid r
      | _ => false
    else if b = 0xf0 then
      match rest with
      | c :: d :: e :: r => (0x90 ≤ c && c ≤ 0xbf) && utf8Cont d && utf8Cont e && utf8Valid r
      | _ => false
    else if 0xf1 ≤ b && b ≤ 0xf3 then
      match rest with
      | c :: d :: e :: r => utf8Cont c && utf8Cont d && utf8Cont e && utf8Valid r
      | _ => false
    else if b = 0xf4 then
      match rest with
      | c :: d :: e :: r => (0x80 ≤ c && c ≤ 0x8f) && utf8Cont d && utf8Cont e && utf8Valid r
      | _ => false
    else false

/-- ASCII lower-casing of one byte. -/
def foldByte (b : Nat) : Nat := if 0x41 ≤ b && b ≤ 0x5a then b + 32 else b

/-- Case-insensitive name comparison (the `strings.EqualFold` call in
`parseMapToStruct`), restricted to ASCII: the Go standard library performs
Unicode simple case folding, which coincides with ASCII folding on the
ASCII field names this codebase uses. -/
def eqFold (a b : List Nat) : Bool := a.map foldByte == b.map foldByte

/-- Big-endian byte-string to natural number (`big.Int.SetBytes`). -/
def bytesToNat (b : List Nat) : Nat := b.foldl (fun a c => a * 256 + c) 0

/-- Two to the sixty-third power, the int64 sign boundary. -/
def int64Half : Nat := 9223372036854775808

/-- Go `int64(val)` conversion of a uint64 head value (two's-complement
wrap-around). -/
def toInt64 (val : Nat) : Int :=
  if val < int64Half then (val : Int) else (val : Int) - 2 * (int64Half : Int)

/-- NaN test on a wire float of width `w` bytes (preserved by the widening
conversions the decoder applies, so testing the wire bits is faithful). -/
def floatIsNaN (w bits : Nat) : Bool :=
  if w = 2 then bits / 1024 % 32 = 31 && bits % 1024 ≠ 0
  else if w = 4 then bits / 8388608 % 256 = 255 && bits % 8388608 ≠ 0
  else bits / 4503599627370496 % 2048 = 2047 && bits % 4503599627370496 ≠ 0

/-- Infinity test on a wire float of width `w` bytes. -/
def floatIsInf (w bits : Nat) : Bool :=
  if w = 2 then bits / 1024 % 32 = 31 && bits % 1024 = 0
  else if w = 4 then bits / 8388608 % 256 = 255 && bits % 8388608 = 0
  else bits / 4503599627370496 % 2048 = 2047 && bits % 4503599627370496 = 0

/-- Well-formedness failure reasons of the structural validation pass. -/
inductive WfErr where
  | truncated
  | reservedAI
  | indefForbidden
  | tagsForbidden
  | invalidBreak
  | maxDepthExceeded
  | maxArrayExceeded
  | maxMapExceeded
  | invalidUTF8Chunking
  deriving DecidableEq, Repr

/-- Distinct `errorMsg` strings attached to `UnmarshalTypeError` values in
decode.go (the message text itself is not re-modelled byte for byte). -/
inductive EMsg where
  | overflowInt64
  | overflowTarget
  | arrayToStructNoToarray
  | arrayToStructWrongSize
  | mapToStructToarray
  | mapKeyNotStringOrInt
  | expectTagValue
  | bignumOverflow
  deriving DecidableEq, Repr

/-- Decode errors (decode.go error taxonomy).  `unmarshalType` carries the
CBOR type, the Go type, the optional struct field name (decode.go stores the
qualified name; the model stores the field's effective name) and the
optional extra message; `dupMapKey` carries key and element index;
`unknownField` carries the element index. -/
inductive DecError where
  | invalidUnmarshal
  | unmarshalType (ct : CborT) (gt : GoType) (fieldName : Option (List Nat)) (msg : Option EMsg)
  | dupMapKey (key : GenValue) (idx : Nat)
  | unknownField (idx : Nat)
  | semanticUTF8
  | invalidMapKeyType
  | cannotSetNewValue
  | wrongTimeTagNumber (n : Nat)
  | builtinTagWrongContent (n : Nat) (ct : CborT)
  | wellformed (e : WfErr)

deriving instance DecidableEq for DecError

/-- Content-type check for the supported built-in tag numbers (decode.go,
`validBuiltinTag`), phrased on the denoted content item: tag 0 requires a
text string, tag 1 an integer or a floating-point head (0xf9 to 0xfb),
tags 2 and 3 a byte string. -/
def validBuiltinTag (tagNum : Nat) (content : CborItem) : Option DecError :=
  if tagNum = 0 then
    if content.cborT = .textString then none
    else some (.builtinTagWrongContent 0 content.cborT)
  else if tagNum = 1 then
    match content with
    | .uint _ => none
    | .nint _ => none
    | .float w _ => if w = 2 || w = 4 || w = 8 then none
                    else some (.builtinTagWrongContent 1 CborT.primitives)
    | c => some (.builtinTagWrongContent 1 c.cborT)
  else if tagNum = 2 || tagNum = 3 then
    if content.cborT = .byteString then none
    else some (.builtinTagWrongContent tagNum content.cborT)
  else none

/-- Hashability of a decoded generic value as a Go map key (decode.go,
`isHashableValue`): slice and map kinds are not hashable, `big.Int` is
excluded, a `Tag` is hashable when its content is. -/
def isHashableG : GenValue → Bool
  | .bytes _ => false
  | .arr _ => false
  | .map _ => false
  | .bigInt _ => false
  | .tagged _ c => isHashableG c
  | _ => true

mutual

/-- Go `reflect.Value.Interface()` on a decoded target value, used when a
typed map key enters the duplicate-key set or a `DupMapKeyError`.  Within a
single Go map all keys share one type, so the width collapse of `uint8`
into `uint` is unobservable; slice, map and pointer keys cannot occur in a
valid Go map type and are mapped to `nil`. -/
def goValueInterface : GoValue → GenValue
  | .intV v => .int v
  | .uintV v => .uint v
  | .uint8V v => .uint v
  | .stringV s => .str s
  | .boolV b => .bool b
  | .floatV r => .float r
  | .ifaceV (some g) => g
  | .ifaceV none => .nil
  | .timeV c => .time c
  | .bigIntV v => .bigInt v
  | .tagV n c => .tagged n c
  | .arrayV _ vs => .arr (goValuesInterface vs)
  | .structV _ _ vs => .arr (goValuesInterface vs)
  | .ptrV _ _ => .nil
  | .sliceV _ _ => .nil
  | .mapV _ _ _ => .nil

/-- Interface views of a list of Go values. -/
def goValuesInterface : List GoValue → List GenValue
  | [] => []
  | v :: vs => goValueInterface v :: goValuesInterface vs

end

/-- MaxInt64 of Go (`math.MaxInt64`). -/
def maxInt64 : Nat := 9223372036854775807

/-- Go type of a target value (`reflect.Value.Type`), used in error values. -/
def GoValue.typeOf : GoValue → GoType
  | .intV _ => .int64T
  | .uintV _ => .uint64T
  | .uint8V _ => .uint8T
  | .stringV _ => .stringT
  | .boolV _ => .boolT
  | .floatV _ => .float64T
  | .ptrV e _ => .ptrT e
  | .sliceV e _ => .sliceT e
  | .arrayV e vs => .arrayT vs.length e
  | .mapV k v _ => .mapT k v
  | .ifaceV _ => .ifaceT
  | .structV fs ta _ => .structT fs ta
  | .timeV _ => .timeT
  | .bigIntV _ => .bigIntT
  | .tagV _ _ => .tagT

/-- Pointer-stripped form of a type (the `nonPtrType` that `getTypeInfo`
computes for a target type before classifying it). -/
def GoType.stripPtr : GoType → GoType
  | .ptrT t => GoType.stripPtr t
  | t => t

/-- Whether a target type receives special-type treatment ahead of the
major-type switch (`typeInfo.spclType`, decode.go lines 647-671): the
classification runs on the pointer-stripped type, so a pointer to the
empty interface, to `time.Time` or to `cbor.Tag` is special too.  The
`Unmarshaler` and registered-interface special types are not modelled. -/
def isSpecialType (t : GoType) : Bool :=
  match t.stripPtr with
  | .ifaceT => true
  | .timeT => true
  | .tagT => true
  | _ => false

/-- Setting a target from CBOR null/undefined (decode.go, `fillNil`):
slice, map, interface and pointer kinds are zeroed; every other kind is
left unchanged; no error in either case. -/
def fillNil (t : CborT) (v : GoValue) : GoValue × Option DecError :=
  match t, v with
  | _, .sliceV e _ => (.sliceV e none, none)
  | _, .mapV kt vt _ => (.mapV kt vt none, none)
  | _, .ifaceV _ => (.ifaceV none, none)
  | _, .ptrV e _ => (.ptrV e none, none)
  | _, _ => (v, none)

/-- Setting a target from a non-negative integer (decode.go,
`fillPositiveInt`): int kinds overflow-checked against MaxInt64 and the
kind's width, uint kinds against the kind's width, float kinds converted,
`big.Int` set exactly; other kinds are a type mismatch. -/
def fillPositiveInt (t : CborT) (val : Nat) (v : GoValue) : GoValue × Option DecError :=
  match v with
  | .intV _ =>
      if val > maxInt64 then
        (v, some (.unmarshalType t .int64T none (some .overflowTarget)))
      else (.intV (val : Int), none)
  | .uintV _ => (.uintV val, none)
  | .uint8V _ =>
      if val > 255 then
        (v, some (.unmarshalType t .uint8T none (some .overflowTarget)))
      else (.uint8V val, none)
  | .floatV _ => (.floatV (.ofInt (val : Int)), none)
  | .bigIntV _ => (.bigIntV (val : Int), none)
  | _ => (v, some (.unmarshalType t v.typeOf none none))

/-- Setting a target from a negative integer (decode.go,
`fillNegativeInt`); the value is already an int64, so the int64 overflow
check never fires and only int, float and `big.Int` targets accept. -/
def fillNegativeInt (t : CborT) (val : Int) (v : GoValue) : GoValue × Option DecError :=
  match v with
  | .intV _ => (.intV val, none)
  | .floatV _ => (.floatV (.ofInt val), none)
  | .bigIntV _ => (.bigIntV val, none)
  | _ => (v, some (.unmarshalType t v.typeOf none none))

/-- Setting a bool target (decode.go, `fillBool`). -/
def fillBool (t : CborT) (val : Bool) (v : GoValue) : GoValue × Option DecError :=
  match v with
  | .boolV _ => (.boolV val, none)
  | _ => (v, some (.unmarshalType t v.typeOf none none))

/-- Setting a float target (decode.go, `fillFloat`); the only modelled float
kind is float64, for which `OverflowFloat` never fires. -/
def fillFloat (t : CborT) (w bits : Nat) (v : GoValue) : GoValue × Option DecError :=
  match v with
  | .floatV _ => (.floatV (.wire w bits), none)
  | _ => (v, some (.unmarshalType t v.typeOf none none))

/-- Setting a target from a byte string (decode.go, `fillByteString`):
byte slices are replaced, byte arrays are filled and zero-padded, other
kinds are a type mismatch.  The `encoding.BinaryUnmarshaler` delegation is
not modelled (no modelled type implements it). -/
def fillByteString (t : CborT) (b : List Nat) (v : GoValue) : GoValue × Option DecError :=
  match v with
  | .sliceV .uint8T _ => (.sliceV .uint8T (some (b.map GoValue.uint8V)), none)
  | .arrayV .uint8T vs =>
      let n := vs.length
      (.arrayV .uint8T ((b.take n).map GoValue.uint8V ++
        List.replicate (n - b.length) (GoValue.uint8V 0)), none)
  | _ => (v, some (.unmarshalType t v.typeOf none none))

/-- Setting a string target (decode.go, `fillTextString`). -/
def fillTextString (t : CborT) (b : List Nat) (v : GoValue) : GoValue × Option DecError :=
  match v with
  | .stringV _ => (.stringV b, none)
  | _ => (v, some (.unmarshalType t v.typeOf none none))

/-- Stripping of all leading tag heads, the `DecTagIgnored` loop of
`parseToTime`. -/
def stripAllTags : CborItem → CborItem
  | .tag _ c => stripAllTags c
  | i => i

/-- The zero `time.Time` in content representation. -/
def zeroTime : GenValue := GenValue.time .nil

/-- Conversion of parsed tag content to a time value (the content type
switch of `parseToTime`): nil content gives the zero time, integer and
float contents give epoch times (a NaN or infinite float gives the zero
time), text content is an RFC3339 time (parse failure of the Go standard
library on ill-formed text is not re-modelled; the time keeps its wire
content), any other content is a type mismatch naming `t`. -/
def timeFrom (t : CborT) : GenValue × Option DecError → GenValue × Option DecError
  | (_, some e) => (zeroTime, some e)
  | (c, none) =>
    match c with
    | .nil => (zeroTime, none)
    | .uint v => (.time (.uint v), none)
    | .int v => (.time (.int v), none)
    | .float (.wire w bits) =>
        if floatIsNaN w bits || floatIsInf w bits then (zeroTime, none)
        else (.time (.float (.wire w bits)), none)
    | .float r => (.time (.float r), none)
    | .str s => (.time (.str s), none)
    | _ => (zeroTime, some (.unmarshalType t .timeT none none))

/-- The stripped item is no larger than the original. -/
theorem sizeOf_strip55799_le : ∀ i : CborItem, sizeOf (strip55799 i) ≤ sizeOf i
  | .tag n c => by
      rw [strip55799]
      split
      · exact le_trans (sizeOf_strip55799_le c) (by simp)
      · exact le_refl _
  | .uint _ => by simp [strip55799]
  | .nint _ => by simp [strip55799]
  | .bytes _ => by simp [strip55799]
  | .text _ => by simp [strip55799]
  | .array _ => by simp [strip55799]
  | .map _ => by simp [strip55799]
  | .bool _ => by simp [strip55799]
  | .null => by simp [strip55799]
  | .undefined => by simp [strip55799]
  | .simple _ => by simp [strip55799]
  | .float _ _ => by simp [strip55799]

/-- The fully tag-stripped item is no larger than the original. -/
theorem sizeOf_stripAllTags_le : ∀ i : CborItem, sizeOf (stripAllTags i) ≤ sizeOf i
  | .tag n c => by
      rw [stripAllTags]
      exact le_trans (sizeOf_stripAllTags_le c) (by simp)
  | .uint _ => by simp [stripAllTags]
  | .nint _ => by simp [stripAllTags]
  | .bytes _ => by simp [stripAllTags]
  | .text _ => by simp [stripAllTags]
  | .array _ => by simp [stripAllTags]
  | .map _ => by simp [stripAllTags]
  | .bool _ => by simp [stripAllTags]
  | .null => by simp [stripAllTags]
  | .undefined => by simp [stripAllTags]
  | .simple _ => by simp [stripAllTags]
  | .float _ _ => by simp [stripAllTags]

/-- First-error-wins combination (`if err == nil { err = lastErr }`). -/
def firstErr (a b : Option DecError) : Option DecError :=
  match a with
  | some _ => a
  | none => b

/-- Go map assignment `m[k] = e` on the association-list model of a Go map:
replace the entry if the key is present, append otherwise (iteration order
of a Go map is unspecified; the model fixes insertion order). -/
def mapUpsert (m : List (GenValue × GenValue)) (k v : GenValue) : List (GenValue × GenValue) :=
  if m.any (fun p => p.1 == k) then
    m.map (fun p => if p.1 == k then (k, v) else p)
  else m ++ [(k, v)]

/-- Generic value of a CBOR unsigned integer under the integer-decode
policy (the major type 0 arm of `decoder.parse`). -/
def parseUintG (dm : DecMode) (v : Nat) : GenValue × Option DecError :=
  if dm.intDec = .convertNone then (.uint v, none)
  else if v > maxInt64 then
    (.nil, some (.unmarshalType .posInt .int64T none (some .overflowInt64)))
  else (.int (v : Int), none)

/-- Generic value of a CBOR negative integer (the major type 1 arm of
`decoder.parse`): `big.Int` when the value overflows int64, otherwise the
int64 produced by `int64(-1) ^ int64(val)`. -/
def parseNintG (v : Nat) : GenValue :=
  if v > maxInt64 then .bigInt (-(v : Int) - 1) else .int (-1 - (v : Int))

/-- Generic bignum value of tag 2/3 content (the tag 2 and 3 arms of
`decoder.parse`); the non-byte-string arm is unreachable behind
`validBuiltinTag`. -/
def parseBignumG (n : Nat) (c : CborItem) : GenValue :=
  match c with
  | .bytes b => if n = 2 then .bigInt (bytesToNat b) else .bigInt (-(bytesToNat b : Int) - 1)
  | _ => .nil

mutual

/-- Generic decoding of one data item to a Go `any` value (decode.go,
`decoder.parse`): strips leading self-described tags when asked, then
dispatches on the item. -/
def parse (dm : DecMode) (skipSelf : Bool) (item0 : CborItem) : GenValue × Option DecError :=
  if skipSelf then parseItemG dm (strip55799 item0) else parseItemG dm item0
termination_by 4 * sizeOf item0 + 1
decreasing_by
  all_goals simp_wf
  all_goals (have h1 := sizeOf_strip55799_le item0; omega)

/-- Major-type switch of `decoder.parse` after self-described-tag
stripping.  Registered tag sets and `DefaultMapType` are absent from the
embedded mode, so those branches collapse. -/
def parseItemG (dm : DecMode) (i : CborItem) : GenValue × Option DecError :=
  match i with
  | .tag n c => parseTagG dm n c
  | .uint v => parseUintG dm v
  | .nint v => (parseNintG v, none)
  | .bytes b => (.bytes b, none)
  | .text b => if utf8Valid b then (.str b, none) else (.nil, some .semanticUTF8)
  | .bool b => (.bool b, none)
  | .null => (.nil, none)
  | .undefined => (.nil, none)
  | .simple v => (.uint v, none)
  | .float w bits => (.float (.wire w bits), none)
  | .array items => parseArrayWrapG dm items
  | .map entries => parseMapWrapG dm entries
termination_by 4 * sizeOf i
decreasing_by
  all_goals simp_wf
  all_goals omega

/-- Tag arm of `decoder.parse`: the built-in tag validity check, then
times (tag 0/1), bignums (tag 2/3) and generic `Tag` wrapping. -/
def parseTagG (dm : DecMode) (n : Nat) (c : CborItem) : GenValue × Option DecError :=
  match validBuiltinTag n c with
  | some e => (.nil, some e)
  | none =>
    if n = 0 ∨ n = 1 then parseToTimeTagged dm n c
    else if n = 2 ∨ n = 3 then (parseBignumG n c, none)
    else
      match parse dm false c with
      | (_, some e) => (.nil, some e)
      | (content, none) => (.tagged n content, none)
termination_by 4 * sizeOf c + 3
decreasing_by
  all_goals simp_wf
  all_goals omega

/-- Time decoding entered from `decoder.parse` on tag 0/1 (decode.go,
`parseToTime`, tag branch): under `DecTagIgnored` all leading tag heads are
stripped and the inner item is parsed; otherwise the tag number must be 0
or 1 and the tag content is parsed (the `t` reported in a content type
mismatch stays the tag type in that case, per the source). -/
def parseToTimeTagged (dm : DecMode) (n : Nat) (c : CborItem) : GenValue × Option DecError :=
  if dm.timeTag = .ignored then
    timeFrom (stripAllTags c).cborT (parse dm false (stripAllTags c))
  else if n ≠ 0 ∧ n ≠ 1 then (zeroTime, some (.wrongTimeTagNumber n))
  else timeFrom .tag (parse dm false c)
termination_by 4 * sizeOf c + 2
decreasing_by
  all_goals simp_wf
  all_goals (have h1 := sizeOf_stripAllTags_le c; omega)

/-- Array arm of `decoder.parse`. -/
def parseArrayWrapG (dm : DecMode) (items : List CborItem) : GenValue × Option DecError :=
  match parseArrayG dm items with
  | (vs, e) => (.arr vs, e)
termination_by 4 * sizeOf items + 1
decreasing_by
  all_goals simp_wf
  all_goals omega

/-- Map arm of `decoder.parse`. -/
def parseMapWrapG (dm : DecMode) (entries : List (CborItem × CborItem)) : GenValue × Option DecError :=
  match parseMapG dm entries 0 [] none with
  | (m, e) => (.map m, e)
termination_by 4 * sizeOf entries + 1
decreasing_by
  all_goals simp_wf
  all_goals omega

/-- Element loop of `decoder.parseArray`: each element is parsed with
self-described-tag stripping; a failed element leaves its preallocated
`nil` slot and the first error wins while the loop continues. -/
def parseArrayG (dm : DecMode) (l : List CborItem) : List GenValue × Option DecError :=
  match l with
  | [] => ([], none)
  | it :: rest =>
    match parse dm true it with
    | (_, some e1) =>
        match parseArrayG dm rest with
        | (vs, _) => (.nil :: vs, some e1)
    | (e, none) =>
        match parseArrayG dm rest with
        | (vs, err) => (e :: vs, err)
termination_by 4 * sizeOf l
decreasing_by
  all_goals simp_wf
  all_goals omega

/-- Entry loop of `decoder.parseMap` over the remaining entries, carrying
the element index, the map built so far and the first error: key parse
failures and unhashable keys skip the entry (first error wins), a value
parse failure skips adding the pair, and under `DupMapKeyEnforcedAPF` an
entry whose key is already present zeroes that key's value and returns a
`DupMapKeyError` at once, dropping all remaining entries. -/
def parseMapG (dm : DecMode) (l : List (CborItem × CborItem)) (i : Nat)
    (m : List (GenValue × GenValue)) (err : Option DecError) :
    List (GenValue × GenValue) × Option DecError :=
  match l with
  | [] => (m, err)
  | (kI, eI) :: rest =>
    match parse dm true kI with
    | (_, some e1) => parseMapG dm rest (i + 1) m (firstErr err (some e1))
    | (k0, none) =>
      let k := if dm.mapKeyByteString = .wrap then
                 match k0 with
                 | .bytes b => GenValue.byteString b
                 | _ => k0
               else k0
      if !isHashableG k then
        parseMapG dm rest (i + 1) m (firstErr err (some .invalidMapKeyType))
      else
        match parse dm true eI with
        | (_, some e2) => parseMapG dm rest (i + 1) m (firstErr err (some e2))
        | (e, none) =>
          let m2 := mapUpsert m k e
          if dm.dupMapKey = .enforcedAPF ∧ m2.length = m.length then
            (mapUpsert m2 k .nil, some (.dupMapKey k i))
          else parseMapG dm rest (i + 1) m2 err
termination_by 4 * sizeOf l
decreasing_by
  all_goals simp_wf
  all_goals omega

end

/-- Test for the empty-interface type (`typeIntf` comparison). -/
def GoType.isIface : GoType → Bool
  | .ifaceT => true
  | _ => false

/-- Pointer depth of a Go type. -/
def GoType.ptrDepthT : GoType → Nat
  | .ptrT e => GoType.ptrDepthT e + 1
  | _ => 0

/-- Pointer depth along a Go value's pointer chain, counting the chain a
nil pointer would grow into when allocated. -/
def GoValue.ptrDepth : GoValue → Nat
  | .ptrV t none => GoType.ptrDepthT t + 1
  | .ptrV _ (some x) => GoValue.ptrDepth x + 1
  | _ => 0

/-- A freshly allocated zero value has the pointer depth of its type. -/
theorem ptrDepth_zeroValue (t : GoType) : (zeroValue t).ptrDepth = t.ptrDepthT := by
  cases t <;> simp [zeroValue, GoValue.ptrDepth, GoType.ptrDepthT]

/-- Pointer unwrapping with allocation (the `for v.Kind() == reflect.Ptr`
loop of `parseToValue`, lines 613-624): walk the pointer chain, allocating
a fresh zero pointee for each nil pointer, and return the innermost
non-pointer target together with the write-back context that re-wraps a
decoded core into the allocated chain.  `CanSet` is always true in the
model, so the cannot-set error branch is dropped. -/
def derefChain (v : GoValue) : GoValue × (GoValue → GoValue) :=
  match v with
  | .ptrV t pv =>
      let inner := pv.getD (zeroValue t)
      let (core, rebuild) := derefChain inner
      (core, fun x => .ptrV t (some (rebuild x)))
  | w => (w, id)
termination_by GoValue.ptrDepth v
decreasing_by
  cases pv with
  | none => simp [GoValue.ptrDepth, ptrDepth_zeroValue]
  | some x => simp [GoValue.ptrDepth]

/-- Time decoding for a `time.Time` target (decode.go, `parseToTime`): the
tag branch is `parseToTimeTagged`; a non-tag item is rejected under
`DecTagRequired` and otherwise parsed directly. -/
def parseToTime (dm : DecMode) (item : CborItem) : GenValue × Option DecError :=
  match item with
  | .tag n c => parseToTimeTagged dm n c
  | _ =>
    if dm.timeTag = .required then
      (zeroTime, some (.unmarshalType item.cborT .timeT none (some .expectTagValue)))
    else timeFrom item.cborT (parse dm false item)

/-- Decoding into a `cbor.Tag` target (decode.go, `parseToTag`): null and
undefined are a no-op, a non-tag item is a type mismatch, otherwise the tag
number and generically parsed content are stored. -/
def parseToTag (dm : DecMode) (item : CborItem) (v : GoValue) : GoValue × Option DecError :=
  if item.isNil then (v, none)
  else
    match item with
    | .tag n c =>
        match parse dm false c with
        | (_, some e) => (v, some e)
        | (content, none) => (.tagV n content, none)
    | _ => (v, some (.unmarshalType item.cborT .tagT none none))

/-- Scan for the first field at index `i` or later that is not yet matched
and satisfies `p` (the field-search loops of `parseMapToStruct`). -/
def findField (p : GoField → Bool) : List GoField → List Bool → Nat → Option Nat
  | [], _, _ => none
  | _ :: _, [], _ => none
  | f :: fs, b :: bs, i => if !b && p f then some i else findField p fs bs (i + 1)

/-- Struct-field match for a text-string map key (decode.go lines
1501-1522): an exact-name pass over the not-yet-matched fields first, then
a case-insensitive pass over the not-yet-matched fields. -/
def matchTextKey (fields : List GoField) (found : List Bool) (key : List Nat) : Option Nat :=
  match findField (fun fld => fld.name.length == key.length && fld.name == key) fields found 0 with
  | some i => some i
  | none => findField (fun fld => fld.name.length == key.length && eqFold fld.name key) fields found 0

/-- Struct-field match for an integer map key (decode.go lines 1549-1557):
first not-yet-matched field declared `keyasint` with the same integer
name. -/
def matchIntKey (fields : List GoField) (found : List Bool) (nameAsInt : Int) : Option Nat :=
  findField (fun fld => fld.keyAsInt && fld.nameAsInt == nameAsInt) fields found 0

/-- Attach the struct field name to an `UnmarshalTypeError` (the
`StructFieldName` assignments in `parseArrayToStruct` and
`parseMapToStruct`). -/
def wrapFieldErr (e : Option DecError) (fname : List Nat) : Option DecError :=
  match e with
  | some (.unmarshalType ct gt _ msg) => some (.unmarshalType ct gt (some fname) msg)
  | e0 => e0

/-- Go `v.SetMapIndex` on a typed map modelled as an association list; keys
compare as their interface values, exactly the comparison Go map insertion
performs. -/
def goMapSet (m : List (GoValue × GoValue)) (k v : GoValue) : List (GoValue × GoValue) :=
  if m.any (fun p => goValueInterface p.1 == goValueInterface k) then
    m.map (fun p => if goValueInterface p.1 == goValueInterface k then (k, v) else p)
  else m ++ [(k, v)]

/-- Negative-integer arm of the `parseToValue` major-type switch: a value
overflowing int64 is stored only into a `big.Int` target, anything else is
a type mismatch; otherwise `fillNegativeInt` runs with `-1 - val`. -/
def fillNintV (val : Nat) (v : GoValue) : GoValue × Option DecError :=
  if val > maxInt64 then
    match v with
    | .bigIntV _ => (.bigIntV (-(val : Int) - 1), none)
    | _ => (v, some (.unmarshalType .negInt v.typeOf none (some .overflowInt64)))
  else fillNegativeInt .negInt (-1 - (val : Int)) v

/-- Tag 2/3 arm of the `parseToValue` major-type switch (bignum decoding):
`big.Int` targets take the exact value, slice/array targets take the raw
bytes, numeric targets take the value when it fits, otherwise a type
mismatch; the non-byte-string content arm is unreachable behind
`validBuiltinTag`. -/
def fillBignum (n : Nat) (c : CborItem) (v : GoValue) : GoValue × Option DecError :=
  match c with
  | .bytes b =>
      if n = 2 then
        let bi := bytesToNat b
        match v with
        | .bigIntV _ => (.bigIntV (bi : Int), none)
        | .sliceV _ _ => fillByteString .tag b v
        | .arrayV _ _ => fillByteString .tag b v
        | _ =>
            if bi < 18446744073709551616 then fillPositiveInt .tag bi v
            else (v, some (.unmarshalType .tag v.typeOf none (some .bignumOverflow)))
      else
        let bi : Int := -(bytesToNat b : Int) - 1
        match v with
        | .bigIntV _ => (.bigIntV bi, none)
        | .sliceV _ _ => fillByteString .tag b v
        | .arrayV _ _ => fillByteString .tag b v
        | _ =>
            if -(9223372036854775808 : Int) ≤ bi then fillNegativeInt .tag bi v
            else (v, some (.unmarshalType .tag v.typeOf none (some .bignumOverflow)))
  | _ => (v, none)

/-- Key adjustment of one map-to-map entry (decode.go lines 1313-1331):
wrap an interface byte-string key under `MapKeyByteStringWrap`, then reject
an unhashable interface key (`none`). -/
def mapKeyAdjust (dm : DecMode) (kt : GoType) (kv0 : GoValue) : Option GoValue :=
  let kv := if kt.isIface && dm.mapKeyByteString = .wrap then
              match kv0 with
              | .ifaceV (some (.bytes b)) => GoValue.ifaceV (some (.byteString b))
              | _ => kv0
            else kv0
  if kt.isIface then
    match kv with
    | .ifaceV (some g) => if isHashableG g then some kv else none
    | _ => some kv
  else some kv

/-- Outcome of analysing one map-to-struct key (the key type switch of
`parseMapToStruct`, decode.go lines 1488-1585): either the whole entry is
skipped (recording an error, first wins), or processing proceeds to the
common tail with the matched field (if any), the updated matched-fields
array and the key for duplicate detection. -/
inductive KeyRes where
  | skipEntry (e : Option DecError)
  | proceed (fOpt : Option Nat) (found2 : List Bool) (k : GenValue) (e : Option DecError)

/-- Key analysis of one map-to-struct entry: a UTF-8-checked text key is
matched exact-first then case-insensitive; an integer key (a positive key
wraps through `int64`, an overflowing negative key skips the entry with an
error) is matched against `keyasint` fields; any other key type records a
type-mismatch error and, under duplicate-key enforcement only, is parsed
generically for the duplicate-key set (an unparsable or unhashable key
skips the entry). -/
def structKeyStep (dm : DecMode) (fields : List GoField) (found : List Bool)
    (kI : CborItem) : KeyRes :=
  match kI with
  | .text kb =>
      if utf8Valid kb then
        match matchTextKey fields found kb with
        | some i => .proceed (some i) (found.set i true) (.str kb) none
        | none => .proceed none found (.str kb) none
      else .skipEntry (some .semanticUTF8)
  | .uint val =>
      match matchIntKey fields found (toInt64 val) with
      | some i => .proceed (some i) (found.set i true) (.int (toInt64 val)) none
      | none => .proceed none found (.int (toInt64 val)) none
  | .nint val =>
      if val > maxInt64 then
        .skipEntry (some (.unmarshalType .negInt .int64T none (some .overflowInt64)))
      else
        match matchIntKey fields found (-1 - (val : Int)) with
        | some i => .proceed (some i) (found.set i true) (.int (-1 - (val : Int))) none
        | none => .proceed none found (.int (-1 - (val : Int))) none
  | _ =>
      let e0 : Option DecError :=
        some (.unmarshalType kI.cborT .stringT none (some .mapKeyNotStringOrInt))
      if dm.dupMapKey = .enforcedAPF then
        match parse dm true kI with
        | (_, some _) => .skipEntry e0
        | (k, none) =>
            if isHashableG k then .proceed none found k e0 else .skipEntry e0
      else .proceed none found .nil e0

/-- Effective name of the field at index `idx`. -/
def fieldNameAt (fields : List GoField) (idx : Nat) : List Nat :=
  match fields.get? idx with
  | some f => f.name
  | none => []

mutual

/-- Decoding one data item into a typed target (decode.go,
`decoder.parseToValue`): for a non-null item the pointer chain is unwrapped
with allocation first, then self-described tags are stripped and the rest
of the function runs on the innermost target.  For a null/undefined item
the pointer chain is left alone; if the pointer-stripped target type is a
special type, its handler is a no-op on null/undefined (empty interface:
`parse` yields nil so nothing is set, lines 649-654; `time.Time`: explicit
no-op, lines 657-662; `cbor.Tag`: `parseToTag` no-op, lines 830-833), so
the target is returned unchanged without error; otherwise the major-type
switch runs `fillNil` on the undereferenced target. -/
def parseToValue (dm : DecMode) (item : CborItem) (v : GoValue) : GoValue × Option DecError :=
  if item.isNil then
    if isSpecialType v.typeOf then (v, none)
    else parseToValueRest dm (strip55799 item) v
  else
    match derefChain v with
    | (core, rebuild) =>
      match parseToValueRest dm (strip55799 item) core with
      | (core2, e) => (rebuild core2, e)
termination_by 4 * sizeOf item + 3
decreasing_by
  all_goals simp_wf
  all_goals (have h1 := sizeOf_strip55799_le item; omega)

/-- Body of `parseToValue` after pointer unwrapping and tag stripping: the
built-in tag validity check, then the special-type dispatch (empty
interface, `cbor.Tag`, `time.Time`) and, for every other target, the
major-type switch.  The registered-tag branches collapse (no registered
tags); the `Unmarshaler` and `ByteString` special types are not
modelled. -/
def parseToValueRest (dm : DecMode) (item : CborItem) (v : GoValue) : GoValue × Option DecError :=
  match (match item with | .tag n c => validBuiltinTag n c | _ => none : Option DecError) with
  | some e => (v, some e)
  | none =>
    match v with
    | .ifaceV ov =>
        match parse dm false item with
        | (iv, e) => (if iv = .nil then .ifaceV ov else .ifaceV (some iv), e)
    | .tagV a b => parseToTag dm item (.tagV a b)
    | .timeV c0 =>
        if item.isNil then (.timeV c0, none)
        else
          match parseToTime dm item with
          | (_, some e) => (.timeV c0, some e)
          | (.time c, none) => (.timeV c, none)
          | (_, none) => (.timeV c0, none)
    | _ => parseToValueMain dm item v
termination_by 4 * sizeOf item + 2
decreasing_by
  all_goals simp_wf
  all_goals omega

/-- Major-type switch of `parseToValue` (decode.go lines 691-826). -/
def parseToValueMain (dm : DecMode) (item : CborItem) (v : GoValue) : GoValue × Option DecError :=
  match item with
  | .uint val => fillPositiveInt .posInt val v
  | .nint val => fillNintV val v
  | .bytes b => fillByteString .byteString b v
  | .text b => if utf8Valid b then fillTextString .textString b v else (v, some .semanticUTF8)
  | .bool b => fillBool .primitives b v
  | .null => fillNil .primitives v
  | .undefined => fillNil .primitives v
  | .simple val => fillPositiveInt .primitives val v
  | .float w bits => fillFloat .primitives w bits v
  | .tag n c => parseToValueTagNum dm n c v
  | .array items => parseToValueArrayCase dm items v
  | .map entries => parseToValueMapCase dm entries v
termination_by 4 * sizeOf item + 1
decreasing_by
  all_goals simp_wf
  all_goals omega

/-- Tag arm of the `parseToValue` major-type switch: bignums for tag 2/3,
otherwise recursion into the tag content (the registered-tag machinery is
absent). -/
def parseToValueTagNum (dm : DecMode) (n : Nat) (c : CborItem) (v : GoValue) : GoValue × Option DecError :=
  if n = 2 ∨ n = 3 then fillBignum n c v else parseToValue dm c v
termination_by 4 * sizeOf c + 4
decreasing_by
  all_goals simp_wf
  all_goals omega

/-- Array arm of the `parseToValue` major-type switch: dispatch on the
target kind (slice, Go array, struct), anything else is a type mismatch
(the whole array is skipped). -/
def parseToValueArrayCase (dm : DecMode) (items : List CborItem) (v : GoValue) : GoValue × Option DecError :=
  match v with
  | .sliceV et ov => parseArrayToSlice dm items et ov
  | .arrayV et vs => parseArrayToArray dm items et vs
  | .structV fs ta vs => parseArrayToStruct dm items fs ta vs
  | _ => (v, some (.unmarshalType .array v.typeOf none none))
termination_by 4 * sizeOf items + 3
decreasing_by
  all_goals simp_wf
  all_goals omega

/-- Map arm of the `parseToValue` major-type switch: dispatch on the target
kind (struct, map), anything else is a type mismatch (the whole map is
skipped). -/
def parseToValueMapCase (dm : DecMode) (entries : List (CborItem × CborItem)) (v : GoValue) : GoValue × Option DecError :=
  match v with
  | .structV fs ta vs => parseMapToStruct dm entries fs ta vs
  | .mapV kt vt ov => parseMapToMap dm entries kt vt ov
  | _ => (v, some (.unmarshalType .map v.typeOf none none))
termination_by 4 * sizeOf entries + 3
decreasing_by
  all_goals simp_wf
  all_goals omega

/-- Decoding a CBOR array into a Go slice (decode.go, `parseArrayToSlice`):
the slice is reallocated when nil, too small or the array is empty (the
model equates capacity with length), its length is set to the element
count, and every element is decoded in place. -/
def parseArrayToSlice (dm : DecMode) (items : List CborItem) (et : GoType)
    (ov : Option (List GoValue)) : GoValue × Option DecError :=
  let count := items.length
  let base := match ov with
              | none => List.replicate count (zeroValue et)
              | some l =>
                  if l.length < count || count = 0 then List.replicate count (zeroValue et)
                  else l.take count
  match parseSliceLoop dm items base with
  | (vals, e) => (.sliceV et (some vals), e)
termination_by 4 * sizeOf items + 2
decreasing_by
  all_goals simp_wf
  all_goals omega

/-- Element loop of slice decoding: decode each element into its slot,
first error wins, the loop always continues. -/
def parseSliceLoop (dm : DecMode) (l : List CborItem) (tgts : List GoValue) :
    List GoValue × Option DecError :=
  match l, tgts with
  | [], _ => ([], none)
  | _ :: _, [] => ([], none)
  | it :: rest, tgt :: tgts2 =>
      match parseToValue dm it tgt with
      | (v2, e1) =>
        match parseSliceLoop dm rest tgts2 with
        | (vs, err) => (v2 :: vs, firstErr e1 err)
termination_by 4 * sizeOf l + 1
decreasing_by
  all_goals simp_wf
  all_goals omega

/-- Decoding a CBOR array into a Go array (decode.go, `parseArrayToArray`):
extra CBOR elements are skipped, missing ones zero the remaining Go
elements, first error wins. -/
def parseArrayToArray (dm : DecMode) (items : List CborItem) (et : GoType)
    (vs : List GoValue) : GoValue × Option DecError :=
  match parseArrayToArrayLoop dm et items vs with
  | (vals, e) => (.arrayV et vals, e)
termination_by 4 * sizeOf items + 2
decreasing_by
  all_goals simp_wf
  all_goals omega

/-- Element loop of Go-array decoding. -/
def parseArrayToArrayLoop (dm : DecMode) (et : GoType) (l : List CborItem)
    (tgts : List GoValue) : List GoValue × Option DecError :=
  match l, tgts with
  | _, [] => ([], none)
  | [], _ :: tgts2 => (List.replicate (tgts2.length + 1) (zeroValue et), none)
  | it :: rest, tgt :: tgts2 =>
      match parseToValue dm it tgt with
      | (v2, e1) =>
        match parseArrayToArrayLoop dm et rest tgts2 with
        | (vs, err) => (v2 :: vs, firstErr e1 err)
termination_by 4 * sizeOf l + 1
decreasing_by
  all_goals simp_wf
  all_goals omega

/-- Decoding a CBOR array into a struct (decode.go, `parseArrayToStruct`):
requires the `toarray` marker and an element count equal to the field
count; on mismatch the whole array is skipped and the struct is left
unchanged.  Only direct fields are modelled, so the embedded-pointer
allocation of `getFieldValue` does not arise. -/
def parseArrayToStruct (dm : DecMode) (items : List CborItem) (fields : List GoField)
    (toArray : Bool) (vals : List GoValue) : GoValue × Option DecError :=
  if !toArray then
    (.structV fields toArray vals,
      some (.unmarshalType .array (.structT fields toArray) none (some .arrayToStructNoToarray)))
  else if items.length ≠ fields.length then
    (.structV fields toArray vals,
      some (.unmarshalType .array (.structT fields toArray) none (some .arrayToStructWrongSize)))
  else
    match parseStructArrayLoop dm items fields vals with
    | (vals2, e) => (.structV fields toArray vals2, e)
termination_by 4 * sizeOf items + 2
decreasing_by
  all_goals simp_wf
  all_goals omega

/-- Field loop of struct-from-array decoding: positional decode into each
field, wrapping a type mismatch with the field name, first error wins. -/
def parseStructArrayLoop (dm : DecMode) (l : List CborItem) (fs : List GoField)
    (vals : List GoValue) : List GoValue × Option DecError :=
  match l, fs, vals with
  | [], _, vals0 => (vals0, none)
  | _ :: _, [], vals0 => (vals0, none)
  | _ :: _, _ :: _, [] => ([], none)
  | it :: rest, f :: fs2, tv :: vals2 =>
      match parseToValue dm it tv with
      | (v2, e1) =>
        match parseStructArrayLoop dm rest fs2 vals2 with
        | (vs, err) => (v2 :: vs, firstErr (wrapFieldErr e1 f.name) err)
termination_by 4 * sizeOf l + 1
decreasing_by
  all_goals simp_wf
  all_goals omega

/-- Decoding a CBOR map into a Go map (decode.go, `parseMapToMap`): a nil
map is allocated; under `DupMapKeyEnforcedAPF` the keys already present
before decoding are collected so that overwriting a pre-existing entry once
is tolerated. -/
def parseMapToMap (dm : DecMode) (entries : List (CborItem × CborItem))
    (kt vt : GoType) (ov : Option (List (GoValue × GoValue))) : GoValue × Option DecError :=
  let m0 := ov.getD []
  let existing := if dm.dupMapKey = .enforcedAPF then m0.map (fun p => goValueInterface p.1) else []
  match parseMapToMapLoop dm kt vt entries 0 m0 existing none with
  | (m2, e) => (.mapV kt vt (some m2), e)
termination_by 4 * sizeOf entries + 2
decreasing_by
  all_goals simp_wf
  all_goals omega

/-- Entry loop of map-to-map decoding (decode.go lines 1295-1372): key
decode failure or an unhashable interface key skips the entry (first error
wins), a value decode failure skips the insertion, and under enforcement a
repeated key that was not a pre-existing key zeroes the entry and aborts
with `DupMapKeyError`, skipping all remaining entries. -/
def parseMapToMapLoop (dm : DecMode) (kt vt : GoType)
    (l : List (CborItem × CborItem)) (i : Nat) (m : List (GoValue × GoValue))
    (existing : List GenValue) (err : Option DecError) :
    List (GoValue × GoValue) × Option DecError :=
  match l with
  | [] => (m, err)
  | (kI, eI) :: rest =>
    match parseToValue dm kI (zeroValue kt) with
    | (_, some e1) => parseMapToMapLoop dm kt vt rest (i + 1) m existing (firstErr err (some e1))
    | (kv0, none) =>
      match mapKeyAdjust dm kt kv0 with
      | none =>
          parseMapToMapLoop dm kt vt rest (i + 1) m existing (firstErr err (some .invalidMapKeyType))
      | some kv =>
        match parseToValue dm eI (zeroValue vt) with
        | (_, some e2) => parseMapToMapLoop dm kt vt rest (i + 1) m existing (firstErr err (some e2))
        | (ev, none) =>
          let m2 := goMapSet m kv ev
          if dm.dupMapKey = .enforcedAPF ∧ m2.length = m.length then
            if !(existing.contains (goValueInterface kv)) then
              (goMapSet m2 kv (zeroValue vt), some (.dupMapKey (goValueInterface kv) i))
            else parseMapToMapLoop dm kt vt rest (i + 1) m2 (existing.erase (goValueInterface kv)) err
          else parseMapToMapLoop dm kt vt rest (i + 1) m2 existing err
termination_by 4 * sizeOf l + 1
decreasing_by
  all_goals simp_wf
  all_goals omega

/-- Decoding a CBOR map into a struct (decode.go, `parseMapToStruct`):
rejected outright for `toarray` structs, otherwise the entry loop runs
with a fresh matched-fields array and an empty duplicate-key set. -/
def parseMapToStruct (dm : DecMode) (entries : List (CborItem × CborItem))
    (fields : List GoField) (toArray : Bool) (vals : List GoValue) : GoValue × Option DecError :=
  if toArray then
    (.structV fields toArray vals,
      some (.unmarshalType .map (.structT fields toArray) none (some .mapToStructToarray)))
  else
    match parseMapToStructLoop dm fields entries 0 vals (List.replicate fields.length false) [] none with
    | (vals2, e) => (.structV fields toArray vals2, e)
termination_by 4 * sizeOf entries + 2
decreasing_by
  all_goals simp_wf
  all_goals omega

/-- Entry loop of map-to-struct decoding (decode.go lines 1484-1650).  The
key switch is `structKeyStep`; the common tail of an entry then runs:
under enforcement a key already in the duplicate-key set aborts at once
with `DupMapKeyError` (skipping the value and all remaining entries); an
unmatched key aborts with `UnknownFieldError` under the unknown-field
policy and is skipped quietly otherwise; a matched key decodes the value
into its field, wrapping a type mismatch with the field name, first error
wins. -/
def parseMapToStructLoop (dm : DecMode) (fields : List GoField)
    (l : List (CborItem × CborItem)) (j : Nat) (vals : List GoValue)
    (found : List Bool) (mapKeys : List GenValue) (err : Option DecError) :
    List GoValue × Option DecError :=
  match l with
  | [] => (vals, err)
  | (kI, eI) :: rest =>
    match structKeyStep dm fields found kI with
    | .skipEntry e =>
        parseMapToStructLoop dm fields rest (j + 1) vals found mapKeys (firstErr err e)
    | .proceed fOpt found2 k e0 =>
      let err0 := firstErr err e0
      if dm.dupMapKey = .enforcedAPF ∧ mapKeys.contains k then
        (vals, some (.dupMapKey k j))
      else
        let mapKeys2 := if dm.dupMapKey = .enforcedAPF then k :: mapKeys else mapKeys
        match fOpt with
        | none =>
            if dm.extraReturnErrors &&& extraDecErrorUnknownField ≠ 0 then
              (vals, some (.unknownField j))
            else parseMapToStructLoop dm fields rest (j + 1) vals found2 mapKeys2 err0
        | some idx =>
            match parseToValue dm eI (vals.getD idx (.ifaceV none)) with
            | (fv2, e1) =>
              parseMapToStructLoop dm fields rest (j + 1) (vals.set idx fv2) found2 mapKeys2
                (firstErr err0 (wrapFieldErr e1 (fieldNameAt fields idx)))
termination_by 4 * sizeOf l + 1
decreasing_by
  all_goals simp_wf
  all_goals omega

end

/-- Byte-level decoder cursor (decode.go, `decoder`): the input bytes and
the next read offset. -/
structure Decoder where
  data : List Nat
  off : Nat
  deriving Repr

deriving instance DecidableEq for Decoder

/-- Read of one input byte; decode.go performs no bounds checking here (the
well-formedness pass has ensured all reads are in bounds), so an
out-of-range read is given the harmless value 0. -/
def byteAt (d : Decoder) (i : Nat) : Nat := d.data.getD i 0

/-- Head parsing (decode.go, `decoder.getHead`): returns the advanced
cursor, the major type (0-7), the additional information bits and the head
value.  Additional information 24 to 27 reads 1, 2, 4 or 8 big-endian
bytes; 28 to 31 leave the value equal to the additional information. -/
def getHead (d : Decoder) : Decoder × Nat × Nat × Nat :=
  let b := byteAt d d.off
  let major := b / 32
  let ai := b % 32
  if ai < 24 then ({ d with off := d.off + 1 }, major, ai, ai)
  else if ai = 24 then ({ d with off := d.off + 2 }, major, ai, byteAt d (d.off + 1))
  else if ai = 25 then
    ({ d with off := d.off + 3 }, major, ai, byteAt d (d.off + 1) * 256 + byteAt d (d.off + 2))
  else if ai = 26 then
    ({ d with off := d.off + 5 }, major, ai,
      byteAt d (d.off + 1) * 16777216 + byteAt d (d.off + 2) * 65536 +
      byteAt d (d.off + 3) * 256 + byteAt d (d.off + 4))
  else if ai = 27 then
    ({ d with off := d.off + 9 }, major, ai,
      byteAt d (d.off + 1) * 72057594037927936 + byteAt d (d.off + 2) * 281474976710656 +
      byteAt d (d.off + 3) * 1099511627776 + byteAt d (d.off + 4) * 4294967296 +
      byteAt d (d.off + 5) * 16777216 + byteAt d (d.off + 6) * 65536 +
      byteAt d (d.off + 7) * 256 + byteAt d (d.off + 8))
  else ({ d with off := d.off + 1 }, major, ai, ai)

/-- Number of extra head bytes for additional information `ai` below 28. -/
def headExtra (ai : Nat) : Nat :=
  if ai < 24 then 0
  else if ai = 24 then 1
  else if ai = 25 then 2
  else if ai = 26 then 4
  else if ai = 27 then 8
  else 0

/-- Head value at the current offset (the `val` component of `getHead`),
recomputed without advancing the cursor. -/
def headVal (d : Decoder) (ai : Nat) : Nat :=
  if ai < 24 then ai
  else if ai = 24 then byteAt d (d.off + 1)
  else if ai = 25 then byteAt d (d.off + 1) * 256 + byteAt d (d.off + 2)
  else if ai = 26 then
    byteAt d (d.off + 1) * 16777216 + byteAt d (d.off + 2) * 65536 +
    byteAt d (d.off + 3) * 256 + byteAt d (d.off + 4)
  else if ai = 27 then
    byteAt d (d.off + 1) * 72057594037927936 + byteAt d (d.off + 2) * 281474976710656 +
    byteAt d (d.off + 3) * 1099511627776 + byteAt d (d.off + 4) * 4294967296 +
    byteAt d (d.off + 5) * 16777216 + byteAt d (d.off + 6) * 65536 +
    byteAt d (d.off + 7) * 256 + byteAt d (d.off + 8)
  else ai

mutual

/-- Modelled from the spec: the structural well-formedness pass of the
decoder (spec 4.3: "A full structural well-formedness pass (header
consistency, indefinite terminators, nesting ≤ max, element counts ≤ max)
runs before any materialization").  The Go `decoder.valid` / well-formedness
source file is absent from the repository snapshot; this definition follows
the spec's four checks over the byte stream: truncated input and reserved
additional-information values 28-30 are header errors, indefinite-length
items respect the profile and terminate with a break, a lone break is
malformed, container/tag nesting may not exceed `maxNestedLevels`, and
array/map element counts may not exceed `maxArrayElements`/`maxMapPairs`.
`fuel` decreases on every call and only serves termination;
`2 * data.length + 4` always suffices. -/
def wellformedItem (dm : DecMode) (d : Decoder) (depth : Nat) : Nat → Except WfErr Decoder
  | 0 => .error .truncated
  | fuel + 1 =>
    if d.off ≥ d.data.length then .error .truncated
    else
      let b := byteAt d d.off
      let major := b / 32
      let ai := b % 32
      if 28 ≤ ai ∧ ai ≤ 30 then .error .reservedAI
      else if ai = 31 then
        if major ≤ 1 ∨ major = 6 then .error .reservedAI
        else if major = 7 then .error .invalidBreak
        else if dm.indefLength = .forbidden then .error .indefForbidden
        else if major = 2 ∨ major = 3 then
          wfChunks dm { d with off := d.off + 1 } major fuel
        else if depth > dm.maxNestedLevels then .error .maxDepthExceeded
        else if major = 4 then
          wfItemsUB dm { d with off := d.off + 1 } (depth + 1) 0 fuel
        else
          wfPairsUB dm { d with off := d.off + 1 } (depth + 1) 0 fuel
      else
        if d.off + 1 + headExtra ai > d.data.length then .error .truncated
        else
          let val := headVal d ai
          let off1 := d.off + 1 + headExtra ai
          if major ≤ 1 then .ok { d with off := off1 }
          else if major = 2 ∨ major = 3 then
            if off1 + val ≤ d.data.length then .ok { d with off := off1 + val }
            else .error .truncated
          else if major = 4 then
            if val > dm.maxArrayElements then .error .maxArrayExceeded
            else if depth > dm.maxNestedLevels then .error .maxDepthExceeded
            else wfItems dm { d with off := off1 } (depth + 1) val fuel
          else if major = 5 then
            if val > dm.maxMapPairs then .error .maxMapExceeded
            else if depth > dm.maxNestedLevels then .error .maxDepthExceeded
            else wfItems dm { d with off := off1 } (depth + 1) (2 * val) fuel
          else if major = 6 then
            if dm.tagsMd = .forbidden then .error .tagsForbidden
            else if depth > dm.maxNestedLevels then .error .maxDepthExceeded
            else wfItems dm { d with off := off1 } (depth + 1) 1 fuel
          else
            if ai = 24 ∧ val < 32 then .error .reservedAI
            else .ok { d with off := off1 }
termination_by structural fuel => fuel

/-- Count-prefixed run of well-formed items. -/
def wfItems (dm : DecMode) (d : Decoder) (depth : Nat) (count : Nat) : Nat → Except WfErr Decoder
  | 0 => .error .truncated
  | fuel + 1 =>
    match count with
    | 0 => .ok d
    | count + 1 =>
      match wellformedItem dm d depth fuel with
      | .error e => .error e
      | .ok d1 => wfItems dm d1 depth count fuel
termination_by structural fuel => fuel

/-- Break-terminated run of well-formed items, enforcing the array element
limit. -/
def wfItemsUB (dm : DecMode) (d : Decoder) (depth : Nat) (count : Nat) : Nat → Except WfErr Decoder
  | 0 => .error .truncated
  | fuel + 1 =>
    if d.off ≥ d.data.length then .error .truncated
    else if byteAt d d.off = 255 then .ok { d with off := d.off + 1 }
    else if count + 1 > dm.maxArrayElements then .error .maxArrayExceeded
    else
      match wellformedItem dm d depth fuel with
      | .error e => .error e
      | .ok d1 => wfItemsUB dm d1 depth (count + 1) fuel
termination_by structural fuel => fuel

/-- Break-terminated run of well-formed key-value pairs, enforcing the map
pair limit. -/
def wfPairsUB (dm : DecMode) (d : Decoder) (depth : Nat) (count : Nat) : Nat → Except WfErr Decoder
  | 0 => .error .truncated
  | fuel + 1 =>
    if d.off ≥ d.data.length then .error .truncated
    else if byteAt d d.off = 255 then .ok { d with off := d.off + 1 }
    else if count + 1 > dm.maxMapPairs then .error .maxMapExceeded
    else
      match wfItems dm d depth 2 fuel with
      | .error e => .error e
      | .ok d1 => wfPairsUB dm d1 depth (count + 1) fuel
termination_by structural fuel => fuel

/-- Break-terminated run of definite same-major string chunks. -/
def wfChunks (dm : DecMode) (d : Decoder) (major : Nat) : Nat → Except WfErr Decoder
  | 0 => .error .truncated
  | fuel + 1 =>
    if d.off ≥ d.data.length then .error .truncated
    else if byteAt d d.off = 255 then .ok { d with off := d.off + 1 }
    else
      let b := byteAt d d.off
      if b / 32 ≠ major then .error .reservedAI
      else if b % 32 ≥ 24 ∧ b % 32 ≠ 24 ∧ b % 32 ≠ 25 ∧ b % 32 ≠ 26 ∧ b % 32 ≠ 27 then .error .reservedAI
      else if d.off + 1 + headExtra (b % 32) > d.data.length then .error .truncated
      else
        let val := headVal d (b % 32)
        let off1 := d.off + 1 + headExtra (b % 32)
        if off1 + val ≤ d.data.length then wfChunks dm { d with off := off1 + val } major fuel
        else .error .truncated
termination_by structural fuel => fuel

end

/-- Validation entry point (decode.go, `decoder.valid` as consumed by
`decoder.value`): one well-formed item from the current offset, under the
profile's limits. -/
def valid (dm : DecMode) (data : List Nat) : Option DecError :=
  match wellformedItem dm ⟨data, 0⟩ 1 (2 * data.length + 4) with
  | .error e => some (.wellformed e)
  | .ok _ => none

/-- Slice of `n` input bytes from offset `i`. -/
def readBytes (d : Decoder) (i n : Nat) : List Nat := (d.data.drop i).take n

mutual

/-- Denotation of the validated byte stream as a structured item,
mirroring the head-driven traversal the decoder performs (`getHead`,
`skip`, the chunk loops of `parseByteString`/`parseTextString` and the
`foundBreak` loops): definite and indefinite strings concatenate to their
bytes, arrays and maps to their element lists, tags nest.  `fuel` decreases on
every call and only serves termination; `2 * data.length + 4` always
suffices for input the well-formedness pass accepted. -/
def decodeItem (d : Decoder) : Nat → Option (CborItem × Decoder)
  | 0 => none
  | fuel + 1 =>
    let b := byteAt d d.off
    let major := b / 32
    let ai := b % 32
    let val := headVal d ai
    let d1 : Decoder := { d with off := d.off + 1 + headExtra ai }
    if 28 ≤ ai ∧ ai ≤ 30 then none
    else if major = 0 then
      if ai = 31 then none else some (.uint val, d1)
    else if major = 1 then
      if ai = 31 then none else some (.nint val, d1)
    else if major = 2 then
      if ai = 31 then
        match decodeChunks d1 2 fuel with
        | some (b, d2) => some (.bytes b, d2)
        | none => none
      else some (.bytes (readBytes d1 d1.off val), { d1 with off := d1.off + val })
    else if major = 3 then
      if ai = 31 then
        match decodeChunks d1 3 fuel with
        | some (b, d2) => some (.text b, d2)
        | none => none
      else some (.text (readBytes d1 d1.off val), { d1 with off := d1.off + val })
    else if major = 4 then
      if ai = 31 then
        match decodeItemsUB d1 fuel with
        | some (items, d2) => some (.array items, d2)
        | none => none
      else
        match decodeItems d1 val fuel with
        | some (items, d2) => some (.array items, d2)
        | none => none
    else if major = 5 then
      if ai = 31 then
        match decodePairsUB d1 fuel with
        | some (es, d2) => some (.map es, d2)
        | none => none
      else
        match decodePairs d1 val fuel with
        | some (es, d2) => some (.map es, d2)
        | none => none
    else if major = 6 then
      if ai = 31 then none
      else
        match decodeItem d1 fuel with
        | some (c, d2) => some (.tag val c, d2)
        | none => none
    else
      if ai < 20 then some (.simple val, d1)
      else if ai = 20 then some (.bool false, d1)
      else if ai = 21 then some (.bool true, d1)
      else if ai = 22 then some (.null, d1)
      else if ai = 23 then some (.undefined, d1)
      else if ai = 24 then some (.simple val, d1)
      else if ai = 25 then some (.float 2 val, d1)
      else if ai = 26 then some (.float 4 val, d1)
      else if ai = 27 then some (.float 8 val, d1)
      else none

/-- Count-prefixed run of items. -/
def decodeItems (d : Decoder) (count : Nat) : Nat → Option (List CborItem × Decoder)
  | 0 => none
  | fuel + 1 =>
    match count with
    | 0 => some ([], d)
    | count + 1 =>
      match decodeItem d fuel with
      | none => none
      | some (it, d1) =>
        match decodeItems d1 count fuel with
        | none => none
        | some (items, d2) => some (it :: items, d2)

/-- Break-terminated run of items. -/
def decodeItemsUB (d : Decoder) : Nat → Option (List CborItem × Decoder)
  | 0 => none
  | fuel + 1 =>
    if byteAt d d.off = 255 then some ([], { d with off := d.off + 1 })
    else
      match decodeItem d fuel with
      | none => none
      | some (it, d1) =>
        match decodeItemsUB d1 fuel with
        | none => none
        | some (items, d2) => some (it :: items, d2)

/-- Count-prefixed run of key-value pairs. -/
def decodePairs (d : Decoder) (count : Nat) : Nat → Option (List (CborItem × CborItem) × Decoder)
  | 0 => none
  | fuel + 1 =>
    match count with
    | 0 => some ([], d)
    | count + 1 =>
      match decodeItem d fuel with
      | none => none
      | some (k, d1) =>
        match decodeItem d1 fuel with
        | none => none
        | some (e, d2) =>
          match decodePairs d2 count fuel with
          | none => none
          | some (es, d3) => some ((k, e) :: es, d3)

/-- Break-terminated run of key-value pairs. -/
def decodePairsUB (d : Decoder) : Nat → Option (List (CborItem × CborItem) × Decoder)
  | 0 => none
  | fuel + 1 =>
    if byteAt d d.off = 255 then some ([], { d with off := d.off + 1 })
    else
      match decodeItem d fuel with
      | none => none
      | some (k, d1) =>
        match decodeItem d1 fuel with
        | none => none
        | some (e, d2) =>
          match decodePairsUB d2 fuel with
          | none => none
          | some (es, d3) => some ((k, e) :: es, d3)

/-- Break-terminated run of definite string chunks, concatenated. -/
def decodeChunks (d : Decoder) (major : Nat) : Nat → Option (List Nat × Decoder)
  | 0 => none
  | fuel + 1 =>
    if byteAt d d.off = 255 then some ([], { d with off := d.off + 1 })
    else if byteAt d d.off / 32 ≠ major ∨ byteAt d d.off % 32 ≥ 28 then none
    else
      let ai := byteAt d d.off % 32
      let val := headVal d ai
      let off1 := d.off + 1 + headExtra ai
      match decodeChunks { d with off := off1 + val } major fuel with
      | none => none
      | some (b, d2) => some (readBytes { d with off := off1 } off1 val ++ b, d2)

end

/-- Top-level typed decode (decode.go, `decoder.value`): the target must be
a non-nil pointer, the whole input is structurally validated with the
offset untouched, and only then is the pointee decoded.  The byte stream
accepted by validation is handed to `parseToValue` as its denoted item. -/
def value (dm : DecMode) (data : List Nat) (v : GoValue) : GoValue × Option DecError :=
  match v with
  | .ptrV _ none => (v, some .invalidUnmarshal)
  | .ptrV t (some inner) =>
      match valid dm data with
      | some e => (v, some e)
      | none =>
        match decodeItem ⟨data, 0⟩ (2 * data.length + 4) with
        | none => (v, some (.wellformed .truncated))
        | some (item, _) =>
          match parseToValue dm item inner with
          | (inner2, e) => (.ptrV t (some inner2), e)
  | _ => (v, some .invalidUnmarshal)

/-- Modelled from the spec: minimal-width CBOR head emission of the encoder
(spec 4.2: "Integers and all lengths use the minimal header width that
represents the value, unconditionally").  The encoder source file is absent
from the repository snapshot; its expected byte output is pinned by
`marshalTests` in encode_test.go.  The head is one byte for values below
24, and 1, 2, 4 or 8 big-endian value bytes after the 24-27 marker for
values below 2^8, 2^16, 2^32 and 2^64 respectively. -/
def encodeHead (major : Nat) (v : Nat) : List Nat :=
  if v ≤ 23 then [major * 32 + v]
  else if v ≤ 255 then [major * 32 + 24, v]
  else if v ≤ 65535 then [major * 32 + 25, v / 256, v % 256]
  else if v ≤ 4294967295 then
    [major * 32 + 26, v / 16777216 % 256, v / 65536 % 256, v / 256 % 256, v % 256]
  else
    [major * 32 + 27, v / 72057594037927936 % 256, v / 281474976710656 % 256,
     v / 1099511627776 % 256, v / 4294967296 % 256, v / 16777216 % 256,
     v / 65536 % 256, v / 256 % 256, v % 256]

/-- Modelled from the spec: encoding of a non-negative Go integer value
(major type 0 with minimal head width). -/
def encodeUint (v : Nat) : List Nat := encodeHead 0 v

/-- Kinds that `fillNil` zeroes (pointer, slice, map, interface). -/
def GoValue.isNilable : GoValue → Bool
  | .ptrV _ _ => true
  | .sliceV _ _ => true
  | .mapV _ _ _ => true
  | .ifaceV _ => true
  | _ => false

/-- C10: decoding CBOR null (0xf6) or undefined (0xf7) into a target that
is not of pointer, slice, map or interface kind returns no error and
leaves the target's existing value unchanged. -/
theorem c10_null_into_nonnilable_is_noop (dm : DecMode) (item : CborItem)
    (hi : item = .null ∨ item = .undefined) (v : GoValue)
    (hv : v.isNilable = false) :
    parseToValue dm item v = (v, none) := by
  rcases hi with rfl | rfl <;>
    cases v <;>
      simp_all [parseToValue, parseToValueRest, parseToValueMain, parseToTag, fillNil,
        strip55799, CborItem.isNil, GoValue.isNilable]

/-- Witness for C10 at concrete inputs: null into an int target and
undefined into a string target are no-ops without error. -/
theorem c10_witness :
    parseToValue defaultDecMode .null (.intV 42) = (.intV 42, none) ∧
    parseToValue defaultDecMode .undefined (.stringV [104, 105]) = (.stringV [104, 105], none) :=
  ⟨c10_null_into_nonnilable_is_noop defaultDecMode .null (Or.inl rfl) (.intV 42) rfl,
   c10_null_into_nonnilable_is_noop defaultDecMode .undefined (Or.inr rfl) (.stringV [104, 105]) rfl⟩

/-- C3 counterexample: decoding CBOR null into a non-nil empty-interface
target and into a `*time.Time` pointer target leaves both unchanged (and
in particular does not set the pointer to nil), with no error — the
original claim promises nil for every interface and pointer target. -/
theorem c3_counterexample_iface_not_nilled :
    (parseToValue defaultDecMode .null (.ifaceV (some (.uint 5)))
       = (.ifaceV (some (.uint 5)), none) ∧
     GoValue.ifaceV (some (.uint 5)) ≠ .ifaceV none) ∧
    (parseToValue defaultDecMode .null (.ptrV .timeT (some (.timeV .nil)))
       = (.ptrV .timeT (some (.timeV .nil)), none) ∧
     GoValue.ptrV .timeT (some (.timeV .nil)) ≠ .ptrV .timeT none) := by
  refine ⟨⟨?_, by simp⟩, ⟨?_, by simp⟩⟩ <;>
    simp [parseToValue, GoValue.typeOf, isSpecialType, GoType.stripPtr, CborItem.isNil]

/-- C3 as amended: for null/undefined input a pointer target whose
pointer-stripped type is not special (empty interface, `time.Time`,
`cbor.Tag`) is set to nil with no error; a pointer target of special
pointer-stripped type is left unchanged with no error (the special-type
handlers are no-ops on null/undefined); slice and map targets are set to
nil; an interface target keeps its current value (so it stays nil exactly
when it already was nil); for a non-null item decoded into a nil pointer
target the pointer is allocated and decoding recurses into the pointed-to
value. -/
theorem c3_nil_handling (dm : DecMode) (item : CborItem)
    (hi : item = .null ∨ item = .undefined) :
    (∀ t pv, isSpecialType (GoType.ptrT t) = false →
       parseToValue dm item (.ptrV t pv) = (.ptrV t none, none)) ∧
    (∀ t pv, isSpecialType (GoType.ptrT t) = true →
       parseToValue dm item (.ptrV t pv) = (.ptrV t pv, none)) ∧
    (∀ t ov, parseToValue dm item (.sliceV t ov) = (.sliceV t none, none)) ∧
    (∀ kt vt ov, parseToValue dm item (.mapV kt vt ov) = (.mapV kt vt none, none)) ∧
    (∀ ov, parseToValue dm item (.ifaceV ov) = (.ifaceV ov, none)) ∧
    (∀ (item2 : CborItem) (t : GoType), item2.isNil = false →
       parseToValue dm item2 (.ptrV t none)
         = (.ptrV t (some (parseToValue dm item2 (zeroValue t)).1),
            (parseToValue dm item2 (zeroValue t)).2)) := by
  refine ⟨?_, ?_, ?_, ?_, ?_, ?_⟩
  · intro t pv h
    rcases hi with rfl | rfl <;>
      simp [parseToValue, GoValue.typeOf, h, parseToValueRest, parseToValueMain, fillNil,
        strip55799, CborItem.isNil]
  · intro t pv h
    rcases hi with rfl | rfl <;>
      simp [parseToValue, GoValue.typeOf, h, CborItem.isNil]
  · intro t ov
    rcases hi with rfl | rfl <;>
      simp [parseToValue, GoValue.typeOf, isSpecialType, GoType.stripPtr, parseToValueRest,
        parseToValueMain, fillNil, strip55799, CborItem.isNil]
  · intro kt vt ov
    rcases hi with rfl | rfl <;>
      simp [parseToValue, GoValue.typeOf, isSpecialType, GoType.stripPtr, parseToValueRest,
        parseToValueMain, fillNil, strip55799, CborItem.isNil]
  · intro ov
    rcases hi with rfl | rfl <;>
      simp [parseToValue, GoValue.typeOf, isSpecialType, GoType.stripPtr, CborItem.isNil]
  · intro item2 t h2
    rw [parseToValue, parseToValue]
    simp only [h2, Bool.false_eq_true, if_false, derefChain]
    cases hd : derefChain (zeroValue t) with
    | mk core rebuild =>
      simp [hd]

/-- Witness for the amended C3 at concrete inputs: null nils out a
`*int64` pointer target, leaves a `*time.Time` pointer target unchanged,
and a non-null integer decodes through a nil pointer by allocating the
pointee. -/
theorem c3_witness :
    parseToValue defaultDecMode .null (.ptrV .int64T (some (.intV 7))) = (.ptrV .int64T none, none) ∧
    parseToValue defaultDecMode .undefined (.ptrV .timeT (some (.timeV .nil)))
      = (.ptrV .timeT (some (.timeV .nil)), none) ∧
    parseToValue defaultDecMode (.uint 3) (.ptrV .int64T none)
      = (.ptrV .int64T (some (parseToValue defaultDecMode (.uint 3) (zeroValue .int64T)).1),
         (parseToValue defaultDecMode (.uint 3) (zeroValue .int64T)).2) :=
  ⟨(c3_nil_handling defaultDecMode .null (Or.inl rfl)).1 .int64T (some (.intV 7)) rfl,
   (c3_nil_handling defaultDecMode .undefined (Or.inr rfl)).2.1 .timeT (some (.timeV .nil)) rfl,
   (c3_nil_handling defaultDecMode .null (Or.inl rfl)).2.2.2.2.2 (.uint 3) .int64T rfl⟩

/-- C8: decoding into a generic (empty-interface) target, a CBOR unsigned
integer becomes a `uint64` under the default integer policy; under
`IntDecConvertSigned` it becomes an `int64`, with an error exactly when the
value overflows int64; a CBOR negative integer always becomes a signed
numeric value (`int64`, or `big.Int` when it overflows int64). -/
theorem c8_generic_integer_decoding (dm : DecMode) (v : Nat)
    (_hv : v < 18446744073709551616) (ov : Option GenValue) :
    (dm.intDec = .convertNone →
       parseToValue dm (.uint v) (.ifaceV ov) = (.ifaceV (some (.uint v)), none)) ∧
    (dm.intDec = .convertSigned → v ≤ maxInt64 →
       parseToValue dm (.uint v) (.ifaceV ov) = (.ifaceV (some (.int (v : Int))), none)) ∧
    (dm.intDec = .convertSigned → v > maxInt64 →
       parseToValue dm (.uint v) (.ifaceV ov)
         = (.ifaceV ov, some (.unmarshalType .posInt .int64T none (some .overflowInt64)))) ∧
    (v ≤ maxInt64 →
       parseToValue dm (.nint v) (.ifaceV ov) = (.ifaceV (some (.int (-1 - (v : Int)))), none)) ∧
    (v > maxInt64 →
       parseToValue dm (.nint v) (.ifaceV ov) = (.ifaceV (some (.bigInt (-(v : Int) - 1))), none)) := by
  refine ⟨?_, ?_, ?_, ?_, ?_⟩
  · intro h
    simp [parseToValue, parseToValueRest, derefChain, parse, parseItemG, parseUintG,
      strip55799, CborItem.isNil, h]
  · intro h h2
    simp [parseToValue, parseToValueRest, derefChain, parse, parseItemG, parseUintG,
      strip55799, CborItem.isNil, h, Nat.not_lt.mpr h2, h2]
  · intro h h2
    simp [parseToValue, parseToValueRest, derefChain, parse, parseItemG, parseUintG,
      strip55799, CborItem.isNil, h, h2]
  · intro h2
    simp [parseToValue, parseToValueRest, derefChain, parse, parseItemG, parseNintG,
      strip55799, CborItem.isNil, Nat.not_lt.mpr h2, h2]
  · intro h2
    simp [parseToValue, parseToValueRest, derefChain, parse, parseItemG, parseNintG,
      strip55799, CborItem.isNil, h2]

/-- Witness for C8 at concrete inputs, covering all five policy/range
combinations (9223372036854775808 is the first value that overflows
int64). -/
theorem c8_witness :
    parseToValue defaultDecMode (.uint 7) (.ifaceV none) = (.ifaceV (some (.uint 7)), none) ∧
    parseToValue { defaultDecMode with intDec := .convertSigned } (.uint 7) (.ifaceV none)
      = (.ifaceV (some (.int (7 : Int))), none) ∧
    parseToValue { defaultDecMode with intDec := .convertSigned } (.uint 9223372036854775808) (.ifaceV none)
      = (.ifaceV none, some (.unmarshalType .posInt .int64T none (some .overflowInt64))) ∧
    parseToValue defaultDecMode (.nint 7) (.ifaceV none) = (.ifaceV (some (.int (-1 - (7 : Nat) : Int))), none) ∧
    parseToValue defaultDecMode (.nint 9223372036854775808) (.ifaceV none)
      = (.ifaceV (some (.bigInt (-((9223372036854775808 : Nat) : Int) - 1))), none) :=
  ⟨(c8_generic_integer_decoding defaultDecMode 7 (by norm_num) none).1 rfl,
   (c8_generic_integer_decoding { defaultDecMode with intDec := .convertSigned } 7 (by norm_num) none).2.1 rfl (by norm_num [maxInt64]),
   (c8_generic_integer_decoding { defaultDecMode with intDec := .convertSigned } 9223372036854775808 (by norm_num) none).2.2.1 rfl (by norm_num [maxInt64]),
   (c8_generic_integer_decoding defaultDecMode 7 (by norm_num) none).2.2.2.1 (by norm_num [maxInt64]),
   (c8_generic_integer_decoding defaultDecMode 9223372036854775808 (by norm_num) none).2.2.2.2 (by norm_num [maxInt64])⟩

theorem firstErr_none_right (a : Option DecError) : firstErr a none = a := by
  cases a <;> rfl

theorem firstErr_none_left (b : Option DecError) : firstErr none b = b := rfl

/-- First error of a list of per-element outcomes: the leftmost `some`. -/
def firstErrs (l : List (Option DecError)) : Option DecError := l.foldr (fun a b => firstErr a b) none

theorem firstErrs_cons (a : Option DecError) (l : List (Option DecError)) :
    firstErrs (a :: l) = firstErr a (firstErrs l) := rfl

/-- The slice element loop decodes every element into its slot and returns
the first per-element error, continuing over the remaining elements. -/
theorem parseSliceLoop_spec (dm : DecMode) :
    ∀ (items : List CborItem) (tgts : List GoValue), items.length = tgts.length →
      parseSliceLoop dm items tgts
        = ((items.zip tgts).map (fun p => (parseToValue dm p.1 p.2).1),
           firstErrs ((items.zip tgts).map (fun p => (parseToValue dm p.1 p.2).2)))
  | [], [] => by intro _; simp [parseSliceLoop, firstErrs]
  | [], t :: ts => by intro h; simp at h
  | it :: its, [] => by intro h; simp at h
  | it :: its, t :: ts => by
      intro h
      have ih := parseSliceLoop_spec dm its ts (by simpa using h)
      rw [parseSliceLoop]
      cases hp : parseToValue dm it t with
      | mk v2 e1 =>
          rw [ih]
          simp [hp, firstErrs_cons]

/-- The positional field loop of struct-from-array decoding decodes every
element into its field and returns the first per-field error (wrapped with
the field name), continuing over the remaining fields. -/
theorem parseStructArrayLoop_spec (dm : DecMode) :
    ∀ (items : List CborItem) (fs : List GoField) (vals : List GoValue),
      items.length = fs.length → vals.length = fs.length →
      parseStructArrayLoop dm items fs vals
        = ((items.zip vals).map (fun p => (parseToValue dm p.1 p.2).1),
           firstErrs ((items.zip (fs.zip vals)).map
             (fun p => wrapFieldErr (parseToValue dm p.1 p.2.2).2 p.2.1.name)))
  | [], [], [] => by intro _ _; simp [parseStructArrayLoop, firstErrs]
  | [], [], _ :: _ => by intro _ h; simp at h
  | [], f :: fs, _ => by intro h _; simp at h
  | it :: its, [], _ => by intro h _; simp at h
  | it :: its, f :: fs, [] => by intro _ h; simp at h
  | it :: its, f :: fs, tv :: vals => by
      intro h h2
      have ih := parseStructArrayLoop_spec dm its fs vals (by simpa using h) (by simpa using h2)
      rw [parseStructArrayLoop]
      cases hp : parseToValue dm it tv with
      | mk v2 e1 =>
          rw [ih]
          simp [hp, firstErrs_cons]

/-- C6: decoding a CBOR array into a struct marked `toarray` errors with an
`UnmarshalTypeError` when the element count differs from the field count,
leaving the struct unchanged; when the counts agree every element is
decoded positionally into its field (no truncation, no padding), the first
per-field error winning while decoding continues. -/
theorem c6_toarray_exact_count (dm : DecMode) (items : List CborItem)
    (fields : List GoField) (vals : List GoValue) :
    (items.length ≠ fields.length →
       parseArrayToStruct dm items fields true vals
         = (.structV fields true vals,
            some (.unmarshalType .array (.structT fields true) none (some .arrayToStructWrongSize)))) ∧
    (items.length = fields.length → vals.length = fields.length →
       parseArrayToStruct dm items fields true vals
         = (.structV fields true ((items.zip vals).map (fun p => (parseToValue dm p.1 p.2).1)),
            firstErrs ((items.zip (fields.zip vals)).map
              (fun p => wrapFieldErr (parseToValue dm p.1 p.2.2).2 p.2.1.name)))) := by
  constructor
  · intro h
    rw [parseArrayToStruct]
    simp [h]
  · intro h h2
    rw [parseArrayToStruct]
    rw [parseStructArrayLoop_spec dm items fields vals h h2]
    simp [h]

/-- Witness for C6: a two-field `toarray` struct rejects a one-element
array unchanged and fills exactly from a two-element array. -/
theorem c6_witness :
    parseArrayToStruct defaultDecMode [.uint 1]
        [.mk [97] false 0 .uint64T, .mk [98] false 0 .uint64T] true [.uintV 0, .uintV 0]
      = (.structV [.mk [97] false 0 .uint64T, .mk [98] false 0 .uint64T] true [.uintV 0, .uintV 0],
         some (.unmarshalType .array
           (.structT [.mk [97] false 0 .uint64T, .mk [98] false 0 .uint64T] true)
           none (some .arrayToStructWrongSize))) ∧
    parseArrayToStruct defaultDecMode [.uint 1, .uint 2]
        [.mk [97] false 0 .uint64T, .mk [98] false 0 .uint64T] true [.uintV 0, .uintV 0]
      = (.structV [.mk [97] false 0 .uint64T, .mk [98] false 0 .uint64T] true
           [(parseToValue defaultDecMode (.uint 1) (.uintV 0)).1,
            (parseToValue defaultDecMode (.uint 2) (.uintV 0)).1],
         firstErrs [wrapFieldErr (parseToValue defaultDecMode (.uint 1) (.uintV 0)).2 [97],
                    wrapFieldErr (parseToValue defaultDecMode (.uint 2) (.uintV 0)).2 [98]]) := by
  constructor
  · exact (c6_toarray_exact_count defaultDecMode [.uint 1]
      [.mk [97] false 0 .uint64T, .mk [98] false 0 .uint64T] [.uintV 0, .uintV 0]).1 (by decide)
  · exact (c6_toarray_exact_count defaultDecMode [.uint 1, .uint 2]
      [.mk [97] false 0 .uint64T, .mk [98] false 0 .uint64T] [.uintV 0, .uintV 0]).2 rfl rfl

/-- C5: per-element errors follow first-error-wins with best-effort
continuation.  For arrays decoded into slices the loop decodes every
element (a fresh slice is preallocated per element) and returns the first
per-element error; for maps decoded into structs a matched field whose
value fails to decode records the first error and processing continues
with the remaining entries — except a duplicate-key error under
enforcement and an unknown-field error under the strict policy, which
return at once with all remaining entries of the map dropped. -/
theorem c5_first_error_wins (dm : DecMode) :
    (∀ (items : List CborItem) (tgts : List GoValue), items.length = tgts.length →
       parseSliceLoop dm items tgts
         = ((items.zip tgts).map (fun p => (parseToValue dm p.1 p.2).1),
            firstErrs ((items.zip tgts).map (fun p => (parseToValue dm p.1 p.2).2)))) ∧
    (∀ (items : List CborItem) (et : GoType),
       parseArrayToSlice dm items et none
         = (.sliceV et (some (parseSliceLoop dm items (List.replicate items.length (zeroValue et))).1),
            (parseSliceLoop dm items (List.replicate items.length (zeroValue et))).2)) ∧
    (∀ fields kI eI rest j vals found mapKeys err idx found2 k e0,
       structKeyStep dm fields found kI = .proceed (some idx) found2 k e0 →
       dm.dupMapKey = .quiet →
       parseMapToStructLoop dm fields ((kI, eI) :: rest) j vals found mapKeys err
         = parseMapToStructLoop dm fields rest (j + 1)
             (vals.set idx (parseToValue dm eI (vals.getD idx (.ifaceV none))).1) found2 mapKeys
             (firstErr (firstErr err e0)
               (wrapFieldErr (parseToValue dm eI (vals.getD idx (.ifaceV none))).2
                 (fieldNameAt fields idx)))) ∧
    (∀ fields kI eI rest j vals found mapKeys err fOpt found2 k e0,
       structKeyStep dm fields found kI = .proceed fOpt found2 k e0 →
       dm.dupMapKey = .enforcedAPF → mapKeys.contains k = true →
       parseMapToStructLoop dm fields ((kI, eI) :: rest) j vals found mapKeys err
         = (vals, some (.dupMapKey k j))) ∧
    (∀ fields kI eI rest j vals found mapKeys err found2 k e0,
       structKeyStep dm fields found kI = .proceed none found2 k e0 →
       dm.dupMapKey = .quiet → dm.extraReturnErrors &&& extraDecErrorUnknownField ≠ 0 →
       parseMapToStructLoop dm fields ((kI, eI) :: rest) j vals found mapKeys err
         = (vals, some (.unknownField j))) := by
  refine ⟨fun items tgts h => parseSliceLoop_spec dm items tgts h, ?_, ?_, ?_, ?_⟩
  · intro items et
    rw [parseArrayToSlice]
  · intro fields kI eI rest j vals found mapKeys err idx found2 k e0 hstep hq
    rw [parseMapToStructLoop]
    cases hp : parseToValue dm eI (vals.getD idx (.ifaceV none)) with
    | mk fv2 e1 =>
        simp only [hstep, hq]
        simp at hp
        simp [hp]
  · intro fields kI eI rest j vals found mapKeys err fOpt found2 k e0 hstep he hc
    have hm : k ∈ mapKeys := by simpa using hc
    rw [parseMapToStructLoop]
    simp [hstep, he, hm]
  · intro fields kI eI rest j vals found mapKeys err found2 k e0 hstep hq hx
    rw [parseMapToStructLoop]
    simp [hstep, hq, hx]

/-- Witness for C5: a two-element array whose first element cannot decode
into a uint64 slot still decodes its second element, and the returned
error is the first element's error. -/
theorem c5_witness :
    parseSliceLoop defaultDecMode [.bool true, .uint 7] [.uintV 0, .uintV 0]
      = ([(parseToValue defaultDecMode (.bool true) (.uintV 0)).1,
          (parseToValue defaultDecMode (.uint 7) (.uintV 0)).1],
         firstErrs [(parseToValue defaultDecMode (.bool true) (.uintV 0)).2,
                    (parseToValue defaultDecMode (.uint 7) (.uintV 0)).2]) :=
  (c5_first_error_wins defaultDecMode).1 [.bool true, .uint 7] [.uintV 0, .uintV 0] rfl

/-- C7: a map key matching no struct field is skipped without error under
the default policy, and the whole struct target is left unchanged; with
`ExtraDecErrorUnknownField` enabled the same key aborts with an
`UnknownFieldError` carrying that key's element index. -/
theorem c7_unknown_field_policy (dm : DecMode) :
    (∀ fields kb eI rest j vals found mapKeys err,
       utf8Valid kb = true → matchTextKey fields found kb = none →
       dm.dupMapKey = .quiet → dm.extraReturnErrors &&& extraDecErrorUnknownField = 0 →
       parseMapToStructLoop dm fields ((.text kb, eI) :: rest) j vals found mapKeys err
         = parseMapToStructLoop dm fields rest (j + 1) vals found mapKeys err) ∧
    (∀ fields kb eI rest j vals found mapKeys err,
       utf8Valid kb = true → matchTextKey fields found kb = none →
       dm.dupMapKey = .quiet → dm.extraReturnErrors &&& extraDecErrorUnknownField ≠ 0 →
       parseMapToStructLoop dm fields ((.text kb, eI) :: rest) j vals found mapKeys err
         = (vals, some (.unknownField j))) ∧
    (∀ fields kb eI vals,
       utf8Valid kb = true →
       matchTextKey fields (List.replicate fields.length false) kb = none →
       dm.dupMapKey = .quiet → dm.extraReturnErrors &&& extraDecErrorUnknownField = 0 →
       parseMapToStruct dm [(.text kb, eI)] fields false vals
         = (.structV fields false vals, none)) ∧
    (∀ fields kb eI vals,
       utf8Valid kb = true →
       matchTextKey fields (List.replicate fields.length false) kb = none →
       dm.dupMapKey = .quiet → dm.extraReturnErrors &&& extraDecErrorUnknownField ≠ 0 →
       parseMapToStruct dm [(.text kb, eI)] fields false vals
         = (.structV fields false vals, some (.unknownField 0))) := by
  have step : ∀ fields kb (found : List Bool), utf8Valid kb = true →
      matchTextKey fields found kb = none →
      structKeyStep dm fields found (.text kb) = .proceed none found (.str kb) none := by
    intro fields kb found hu hm
    simp [structKeyStep, hu, hm]
  refine ⟨?_, ?_, ?_, ?_⟩
  · intro fields kb eI rest j vals found mapKeys err hu hm hq hx
    rw [parseMapToStructLoop]
    simp [step fields kb found hu hm, hq, hx, firstErr_none_right]
  · intro fields kb eI rest j vals found mapKeys err hu hm hq hx
    rw [parseMapToStructLoop]
    simp [step fields kb found hu hm, hq, hx]
  · intro fields kb eI vals hu hm hq hx
    rw [parseMapToStruct]
    rw [parseMapToStructLoop]
    simp [step fields kb _ hu hm, hq, hx, parseMapToStructLoop, firstErr_none_right]
  · intro fields kb eI vals hu hm hq hx
    rw [parseMapToStruct]
    rw [parseMapToStructLoop]
    simp [step fields kb _ hu hm, hq, hx]

/-- Witness for C7: the key "b" matches no field of a one-field struct
named "a"; the whole decode is a quiet no-op by default and an
`UnknownFieldError` at index 0 under the strict policy. -/
theorem c7_witness :
    parseMapToStruct defaultDecMode [(.text [98], .uint 1)] [.mk [97] false 0 .uint64T] false [.uintV 0]
      = (.structV [.mk [97] false 0 .uint64T] false [.uintV 0], none) ∧
    parseMapToStruct { defaultDecMode with extraReturnErrors := 1 }
        [(.text [98], .uint 1)] [.mk [97] false 0 .uint64T] false [.uintV 0]
      = (.structV [.mk [97] false 0 .uint64T] false [.uintV 0], some (.unknownField 0)) :=
  ⟨(c7_unknown_field_policy defaultDecMode).2.2.1 [.mk [97] false 0 .uint64T] [98] (.uint 1) [.uintV 0]
      rfl rfl rfl rfl,
   (c7_unknown_field_policy { defaultDecMode with extraReturnErrors := 1 }).2.2.2
      [.mk [97] false 0 .uint64T] [98] (.uint 1) [.uintV 0] rfl rfl rfl (by decide)⟩

/-- Under the quiet duplicate-key policy the map-to-map entry loop never
produces an error when every entry's key decodes cleanly to an acceptable
key and every value decodes cleanly. -/
theorem parseMapToMapLoop_quiet_no_error (dm : DecMode) (kt vt : GoType)
    (hq : dm.dupMapKey = .quiet) :
    ∀ (entries : List (CborItem × CborItem)) (i : Nat) (m : List (GoValue × GoValue))
      (existing : List GenValue),
      (∀ p ∈ entries, (parseToValue dm p.1 (zeroValue kt)).2 = none ∧
         (mapKeyAdjust dm kt (parseToValue dm p.1 (zeroValue kt)).1).isSome = true ∧
         (parseToValue dm p.2 (zeroValue vt)).2 = none) →
      (parseMapToMapLoop dm kt vt entries i m existing none).2 = none
  | [] => by
      intro i m existing _
      simp [parseMapToMapLoop]
  | (kI, eI) :: rest => by
      intro i m existing hall
      obtain ⟨h1, h2, h3⟩ := hall (kI, eI) (by simp)
      rw [parseMapToMapLoop]
      cases hp : parseToValue dm kI (zeroValue kt) with
      | mk kv0 e1 =>
        rw [hp] at h1 h2
        simp only at h1
        subst h1
        cases hj : mapKeyAdjust dm kt kv0 with
        | none =>
            rw [hj] at h2
            simp at h2
        | some kv =>
          cases hv : parseToValue dm eI (zeroValue vt) with
          | mk ev e2 =>
            rw [hv] at h3
            simp only at h3
            subst h3
            simp only [hq]
            have ih := parseMapToMapLoop_quiet_no_error dm kt vt hq rest (i + 1)
              (goMapSet m kv ev) existing (fun p hp2 => hall p (by simp [hp2]))
            simp [hj, ih]

/-- C2: under `DupMapKeyEnforcedAPF`, a map entry whose decoded key is
already present (and was not a pre-existing key of a reused target map)
zeroes that key's value and returns a `DupMapKeyError` carrying the key's
interface value and the element index, with all remaining entries dropped
undecoded (the result does not depend on them); under the default quiet
policy a map whose entries all decode cleanly produces no error; a struct
target behaves the same way: a key already in the duplicate-key set aborts
at once with `DupMapKeyError` naming key and index, independent of the
remaining entries. -/
theorem c2_duplicate_map_key (dm : DecMode) :
    (∀ kt vt kI eI (tail : List (CborItem × CborItem)) i m existing err kv0 kv ev,
       dm.dupMapKey = .enforcedAPF →
       parseToValue dm kI (zeroValue kt) = (kv0, none) →
       mapKeyAdjust dm kt kv0 = some kv →
       parseToValue dm eI (zeroValue vt) = (ev, none) →
       (goMapSet m kv ev).length = m.length →
       existing.contains (goValueInterface kv) = false →
       parseMapToMapLoop dm kt vt ((kI, eI) :: tail) i m existing err
         = (goMapSet (goMapSet m kv ev) kv (zeroValue vt),
            some (.dupMapKey (goValueInterface kv) i))) ∧
    (∀ kt vt (entries : List (CborItem × CborItem)) i m existing,
       dm.dupMapKey = .quiet →
       (∀ p ∈ entries, (parseToValue dm p.1 (zeroValue kt)).2 = none ∧
          (mapKeyAdjust dm kt (parseToValue dm p.1 (zeroValue kt)).1).isSome = true ∧
          (parseToValue dm p.2 (zeroValue vt)).2 = none) →
       (parseMapToMapLoop dm kt vt entries i m existing none).2 = none) ∧
    (∀ fields kI eI (tail : List (CborItem × CborItem)) j vals found mapKeys err fOpt found2 k e0,
       dm.dupMapKey = .enforcedAPF →
       structKeyStep dm fields found kI = .proceed fOpt found2 k e0 →
       mapKeys.contains k = true →
       parseMapToStructLoop dm fields ((kI, eI) :: tail) j vals found mapKeys err
         = (vals, some (.dupMapKey k j))) := by
  refine ⟨?_, ?_, ?_⟩
  · intro kt vt kI eI tail i m existing err kv0 kv ev he h1 h2 h3 h4 h5
    have h5m : goValueInterface kv ∉ existing := by simpa using h5
    rw [parseMapToMapLoop]
    simp [h1, h2, h3, he, h4, h5m]
  · intro kt vt entries i m existing hq hall
    exact parseMapToMapLoop_quiet_no_error dm kt vt hq entries i m existing hall
  · intro fields kI eI tail j vals found mapKeys err fOpt found2 k e0 he hstep hc
    have hm : k ∈ mapKeys := by simpa using hc
    rw [parseMapToStructLoop]
    simp [hstep, he, hm]

/-- C2 at concrete inputs: with `DupMapKeyEnforcedAPF`, the second
occurrence of key `1` in a map decoded into a `map[uint64]uint64` target
zeroes that key's value and aborts with `DupMapKeyError{key 1, index 1}`;
the same duplicate under the default quiet policy decodes without error;
and a struct target whose duplicate-key set already holds the string key
"a" aborts with `DupMapKeyError{key "a", index 1}`. -/
theorem c2_witness :
    parseMapToMapLoop { defaultDecMode with dupMapKey := .enforcedAPF } .uint64T .uint64T
        [(.uint 1, .uint 20)] 1 [(.uintV 1, .uintV 10)] [] none
      = (goMapSet (goMapSet [(.uintV 1, .uintV 10)] (.uintV 1) (.uintV 20)) (.uintV 1)
           (zeroValue .uint64T),
         some (.dupMapKey (goValueInterface (.uintV 1)) 1)) ∧
    (parseMapToMapLoop defaultDecMode .uint64T .uint64T
        [(.uint 1, .uint 10), (.uint 1, .uint 20)] 0 [] [] none).2 = none ∧
    parseMapToStructLoop { defaultDecMode with dupMapKey := .enforcedAPF }
        [.mk [97] false 0 .uint64T] [(.text [97], .uint 5)] 1 [.uintV 0] [false] [.str [97]] none
      = ([.uintV 0], some (.dupMapKey (.str [97]) 1)) := by
  have e1 : parseToValue { defaultDecMode with dupMapKey := DupMapKeyMode.enforcedAPF }
      (.uint 1) (zeroValue .uint64T) = (.uintV 1, none) := by
    simp [parseToValue, parseToValueRest, parseToValueMain, derefChain, fillPositiveInt,
      CborItem.isNil, zeroValue, strip55799]
  have e2 : parseToValue { defaultDecMode with dupMapKey := DupMapKeyMode.enforcedAPF }
      (.uint 20) (zeroValue .uint64T) = (.uintV 20, none) := by
    simp [parseToValue, parseToValueRest, parseToValueMain, derefChain, fillPositiveInt,
      CborItem.isNil, zeroValue, strip55799]
  have q1 : parseToValue defaultDecMode (.uint 1) (zeroValue .uint64T) = (.uintV 1, none) := by
    simp [parseToValue, parseToValueRest, parseToValueMain, derefChain, fillPositiveInt,
      CborItem.isNil, zeroValue, strip55799]
  have q10 : parseToValue defaultDecMode (.uint 10) (zeroValue .uint64T) = (.uintV 10, none) := by
    simp [parseToValue, parseToValueRest, parseToValueMain, derefChain, fillPositiveInt,
      CborItem.isNil, zeroValue, strip55799]
  have q20 : parseToValue defaultDecMode (.uint 20) (zeroValue .uint64T) = (.uintV 20, none) := by
    simp [parseToValue, parseToValueRest, parseToValueMain, derefChain, fillPositiveInt,
      CborItem.isNil, zeroValue, strip55799]
  refine ⟨?_, ?_, ?_⟩
  · exact (c2_duplicate_map_key _).1 .uint64T .uint64T (.uint 1) (.uint 20) [] 1
      [(.uintV 1, .uintV 10)] [] none (.uintV 1) (.uintV 1) (.uintV 20)
      rfl e1 rfl e2 rfl rfl
  · refine (c2_duplicate_map_key defaultDecMode).2.1 .uint64T .uint64T _ 0 [] [] rfl ?_
    intro p hp
    simp at hp
    rcases hp with rfl | rfl
    · exact ⟨by simp [q1], by simp [q1, mapKeyAdjust, GoType.isIface], by simp [q10]⟩
    · exact ⟨by simp [q1], by simp [q1, mapKeyAdjust, GoType.isIface], by simp [q20]⟩
  · exact (c2_duplicate_map_key _).2.2 [.mk [97] false 0 .uint64T] (.text [97]) (.uint 5) []
      1 [.uintV 0] [false] [.str [97]] none (some 0) [true] (.str [97]) none
      rfl rfl rfl

/-- `findField` hit characterization: it returns `some j` exactly when
position `k = j - i0` holds the first not-yet-matched field satisfying the
predicate. -/
theorem findField_some_iff (p : GoField → Bool) :
    ∀ (fields : List GoField) (found : List Bool) (i0 j : Nat),
      findField p fields found i0 = some j ↔
        ∃ k f, fields[k]? = some f ∧ found[k]? = some false ∧ p f = true ∧ j = i0 + k ∧
          ∀ l, l < k → ∀ g, fields[l]? = some g → found[l]? = some false → p g = false
  | [], found, i0, j => by simp [findField]
  | _ :: _, [], i0, j => by simp [findField]
  | f :: fs, b :: bs, i0, j => by
      rw [findField]
      by_cases hb : (!b && p f) = true
      · rw [if_pos hb]
        rw [Bool.and_eq_true] at hb
        obtain ⟨hb1, hb2⟩ := hb
        have hbf : b = false := by simpa using hb1
        constructor
        · intro h
          injection h with h
          subst h
          exact ⟨0, f, by simp, by simp [hbf], hb2, by omega,
            fun l hl => absurd hl (Nat.not_lt_zero l)⟩
        · rintro ⟨k, g, hg, hf, hp, rfl, hmin⟩
          rcases k with _ | k
          · rfl
          · exfalso
            have h0 := hmin 0 (Nat.succ_pos k) f (by simp) (by simp [hbf])
            rw [h0] at hb2
            exact Bool.false_ne_true hb2
      · rw [if_neg hb]
        rw [findField_some_iff p fs bs (i0 + 1) j]
        constructor
        · rintro ⟨k, g, hg, hf, hp, rfl, hmin⟩
          refine ⟨k + 1, g, by simpa using hg, by simpa using hf, hp, by omega, ?_⟩
          intro l hl g2 hg2 hf2
          rcases l with _ | l
          · have hgf : g2 = f := by
              have := hg2
              simp at this
              exact this.symm
            have hbf : b = false := by simpa using hf2
            rw [hgf]
            by_cases hpf : p f = true
            · exact absurd (by simp [hbf, hpf]) hb
            · simpa using hpf
          · exact hmin l (by omega) g2 (by simpa using hg2) (by simpa using hf2)
        · rintro ⟨k, g, hg, hf, hp, hj, hmin⟩
          rcases k with _ | k
          · exfalso
            have hgf : f = g := by
              have := hg
              simp at this
              exact this
            have hbf : b = false := by simpa using hf
            exact hb (by simp [hbf, hgf, hp])
          · refine ⟨k, g, by simpa using hg, by simpa using hf, hp, by omega, ?_⟩
            intro l hl g2 hg2 hf2
            exact hmin (l + 1) (by omega) g2 (by simpa using hg2) (by simpa using hf2)

/-- `findField` miss characterization: it returns `none` exactly when no
not-yet-matched field satisfies the predicate. -/
theorem findField_none_iff (p : GoField → Bool) :
    ∀ (fields : List GoField) (found : List Bool) (i0 : Nat),
      findField p fields found i0 = none ↔
        ∀ (k : Nat) f, fields[k]? = some f → found[k]? = some false → p f = false
  | [], found, i0 => by simp [findField]
  | _ :: _, [], i0 => by simp [findField]
  | f :: fs, b :: bs, i0 => by
      rw [findField]
      by_cases hb : (!b && p f) = true
      · rw [if_pos hb]
        rw [Bool.and_eq_true] at hb
        obtain ⟨hb1, hb2⟩ := hb
        have hbf : b = false := by simpa using hb1
        constructor
        · intro h
          exact absurd h (by simp)
        · intro h
          exfalso
          have h0 := h 0 f (by simp) (by simp [hbf])
          rw [h0] at hb2
          exact Bool.false_ne_true hb2
      · rw [if_neg hb]
        rw [findField_none_iff p fs bs (i0 + 1)]
        constructor
        · intro h k g hg hf
          rcases k with _ | k
          · have hgf : f = g := by
              have := hg
              simp at this
              exact this
            have hbf : b = false := by simpa using hf
            rw [← hgf]
            by_cases hpf : p f = true
            · exact absurd (by simp [hbf, hpf]) hb
            · simpa using hpf
          · exact h k g (by simpa using hg) (by simpa using hf)
        · intro h k g hg hf
          exact h (k + 1) g (by simpa using hg) (by simpa using hf)

/-- C4: a text map key is matched to a struct field by exact name first
(whenever an unmatched field has exactly the key's name, the match
succeeds), the returned field is always still unmatched and either names
the key exactly or — only when no unmatched field names it exactly —
case-insensitively; the struct decode's key step uses exactly this match
and marks the matched field; integer keys likewise only match unmatched
`keyasint` fields with the same integer name. -/
theorem c4_struct_key_matching (fields : List GoField) (found : List Bool) (key : List Nat) :
    (∀ (i : Nat) f, fields[i]? = some f → found[i]? = some false → f.name = key →
       ∃ (j : Nat) (g : GoField), matchTextKey fields found key = some j ∧ fields[j]? = some g ∧
         found[j]? = some false ∧ g.name = key) ∧
    (∀ (j : Nat), matchTextKey fields found key = some j →
       ∃ g, fields[j]? = some g ∧ found[j]? = some false ∧
         (g.name = key ∨
          (eqFold g.name key = true ∧
           ∀ (i : Nat) f, fields[i]? = some f → found[i]? = some false → f.name ≠ key))) ∧
    (∀ (dm : DecMode), utf8Valid key = true →
       structKeyStep dm fields found (.text key)
         = match matchTextKey fields found key with
           | some i => .proceed (some i) (found.set i true) (.str key) none
           | none => .proceed none found (.str key) none) ∧
    (∀ (n : Int) (j : Nat), matchIntKey fields found n = some j →
       ∃ g, fields[j]? = some g ∧ found[j]? = some false ∧
         g.keyAsInt = true ∧ g.nameAsInt = n) := by
  refine ⟨?_, ?_, ?_, ?_⟩
  · intro i f hf hb hname
    cases hE : findField (fun fld => fld.name.length == key.length && fld.name == key)
        fields found 0 with
    | none =>
        have h0 := (findField_none_iff _ fields found 0).mp hE i f hf hb
        rw [hname] at h0
        simp at h0
    | some j0 =>
        obtain ⟨k, g, hg, hfo, hp, hj, _⟩ := (findField_some_iff _ fields found 0 j0).mp hE
        rw [Bool.and_eq_true] at hp
        have hgname : g.name = key := by simpa using hp.2
        have hk : k = j0 := by omega
        subst hk
        exact ⟨k, g, by simp [matchTextKey, hE], hg, hfo, hgname⟩
  · intro j hm
    rw [matchTextKey] at hm
    cases hE : findField (fun fld => fld.name.length == key.length && fld.name == key)
        fields found 0 with
    | some j0 =>
        rw [hE] at hm
        simp at hm
        subst hm
        obtain ⟨k, g, hg, hfo, hp, hj, _⟩ := (findField_some_iff _ fields found 0 j0).mp hE
        rw [Bool.and_eq_true] at hp
        have hk : k = j0 := by omega
        subst hk
        exact ⟨g, hg, hfo, Or.inl (by simpa using hp.2)⟩
    | none =>
        rw [hE] at hm
        obtain ⟨k, g, hg, hfo, hp, hj, _⟩ := (findField_some_iff _ fields found 0 j).mp hm
        rw [Bool.and_eq_true] at hp
        have hk : k = j := by omega
        subst hk
        refine ⟨g, hg, hfo, Or.inr ⟨hp.2, ?_⟩⟩
        intro i f hf hb hname
        have h0 := (findField_none_iff _ fields found 0).mp hE i f hf hb
        rw [hname] at h0
        simp at h0
  · intro dm hu
    cases hM : matchTextKey fields found key <;> simp [structKeyStep, hu, hM]
  · intro n j hm
    rw [matchIntKey] at hm
    obtain ⟨k, g, hg, hfo, hp, hj, _⟩ := (findField_some_iff _ fields found 0 j).mp hm
    rw [Bool.and_eq_true] at hp
    have hk : k = j := by omega
    subst hk
    exact ⟨g, hg, hfo, hp.1, by simpa using hp.2⟩

/-- C4 at concrete inputs: the key "a" against fields named "A" and "a"
matches the exact field "a" at index 1, not the case-insensitive
candidate "A"; against the single field "A" it matches case-insensitively
at index 0; the key step of the struct decode performs this match and
marks the field; the integer key 5 matches a `keyasint` field named 5. -/
theorem c4_witness :
    (∃ (j : Nat) (g : GoField),
       matchTextKey [GoField.mk [65] false 0 .uint64T, .mk [97] false 0 .uint64T]
         [false, false] [97] = some j ∧
       [GoField.mk [65] false 0 .uint64T, .mk [97] false 0 .uint64T][j]? = some g ∧
       [false, false][j]? = some false ∧ g.name = [97]) ∧
    (∃ g, [GoField.mk [65] false 0 .uint64T][0]? = some g ∧ [false][0]? = some false ∧
       (g.name = [97] ∨ (eqFold g.name [97] = true ∧
          ∀ (i : Nat) f, [GoField.mk [65] false 0 .uint64T][i]? = some f →
            [false][i]? = some false → f.name ≠ [97]))) ∧
    structKeyStep defaultDecMode [GoField.mk [97] false 0 .uint64T] [false] (.text [97])
      = .proceed (some 0) [true] (.str [97]) none ∧
    (∃ g, [GoField.mk [49] true 5 .uint64T][0]? = some g ∧ [false][0]? = some false ∧
       g.keyAsInt = true ∧ g.nameAsInt = 5) :=
  ⟨(c4_struct_key_matching [.mk [65] false 0 .uint64T, .mk [97] false 0 .uint64T]
      [false, false] [97]).1 1 (.mk [97] false 0 .uint64T) (by decide) (by decide) rfl,
   (c4_struct_key_matching [.mk [65] false 0 .uint64T] [false] [97]).2.1 0 (by decide),
   ((c4_struct_key_matching [.mk [97] false 0 .uint64T] [false] [97]).2.2.1
      defaultDecMode (by decide)).trans rfl,
   (c4_struct_key_matching [.mk [49] true 5 .uint64T] [false] []).2.2.2 5 0 (by decide)⟩

/-- C9: the encoder head is minimal-width: the pinned `marshalTests`
vectors hold (23 → 0x17, 24 → 0x1818, 256 → 0x190100, 65536 →
0x1a00010000); every emitted head decodes back (`getHead`) to exactly the
encoded major type and value, consuming the whole head; and the emitted
head is no longer than any CBOR head form (additional information `ai`
with `1 + headExtra ai` bytes) capable of representing the value. -/
theorem c9_minimal_head_width :
    (encodeUint 23 = [23] ∧ encodeUint 24 = [24, 24] ∧
     encodeUint 256 = [25, 1, 0] ∧ encodeUint 65536 = [26, 0, 1, 0, 0]) ∧
    (∀ (major v : Nat), major < 8 → v < 18446744073709551616 →
       (getHead ⟨encodeHead major v, 0⟩).2.1 = major ∧
       (getHead ⟨encodeHead major v, 0⟩).2.2.2 = v ∧
       (getHead ⟨encodeHead major v, 0⟩).1 = ⟨encodeHead major v, (encodeHead major v).length⟩) ∧
    (∀ (major v ai : Nat), ai ≤ 27 →
       (ai < 24 → v = ai) →
       (ai = 24 → v ≤ 255) →
       (ai = 25 → v ≤ 65535) →
       (ai = 26 → v ≤ 4294967295) →
       (ai = 27 → v ≤ 18446744073709551615) →
       (encodeHead major v).length ≤ 1 + headExtra ai) := by
  refine ⟨⟨by decide, by decide, by decide, by decide⟩, ?_, ?_⟩
  · intro major v hm hv
    by_cases h1 : v ≤ 23
    · have e : encodeHead major v = [major * 32 + v] := by rw [encodeHead, if_pos h1]
      have h32 : (major * 32 + v) % 32 = v := by omega
      have hd32 : (major * 32 + v) / 32 = major := by omega
      rw [e]
      simp [getHead, byteAt, h32, hd32, show v < 24 by omega]
    · by_cases h2 : v ≤ 255
      · have e : encodeHead major v = [major * 32 + 24, v] := by
          rw [encodeHead, if_neg h1, if_pos h2]
        have h32 : (major * 32 + 24) % 32 = 24 := by omega
        have hd32 : (major * 32 + 24) / 32 = major := by omega
        rw [e]
        simp [getHead, byteAt, h32, hd32]
      · by_cases h3 : v ≤ 65535
        · have e : encodeHead major v = [major * 32 + 25, v / 256, v % 256] := by
            rw [encodeHead, if_neg h1, if_neg h2, if_pos h3]
          have h32 : (major * 32 + 25) % 32 = 25 := by omega
          have hd32 : (major * 32 + 25) / 32 = major := by omega
          rw [e]
          simp [getHead, byteAt, h32, hd32]
          omega
        · by_cases h4 : v ≤ 4294967295
          · have e : encodeHead major v
                = [major * 32 + 26, v / 16777216 % 256, v / 65536 % 256, v / 256 % 256, v % 256] := by
              rw [encodeHead, if_neg h1, if_neg h2, if_neg h3, if_pos h4]
            have h32 : (major * 32 + 26) % 32 = 26 := by omega
            have hd32 : (major * 32 + 26) / 32 = major := by omega
            rw [e]
            simp [getHead, byteAt, h32, hd32]
            omega
          · have e : encodeHead major v
                = [major * 32 + 27, v / 72057594037927936 % 256, v / 281474976710656 % 256,
                   v / 1099511627776 % 256, v / 4294967296 % 256, v / 16777216 % 256,
                   v / 65536 % 256, v / 256 % 256, v % 256] := by
              rw [encodeHead, if_neg h1, if_neg h2, if_neg h3, if_neg h4]
            have h32 : (major * 32 + 27) % 32 = 27 := by omega
            have hd32 : (major * 32 + 27) / 32 = major := by omega
            rw [e]
            simp [getHead, byteAt, h32, hd32]
            omega
  · intro major v ai ha i0 i1 i2 i3 i4
    have hl : (encodeHead major v).length
        = if v ≤ 23 then 1 else if v ≤ 255 then 2 else if v ≤ 65535 then 3
          else if v ≤ 4294967295 then 5 else 9 := by
      rw [encodeHead]
      split_ifs <;> simp
    rw [hl]
    interval_cases ai <;> simp_all [headExtra] <;> split_ifs <;> omega

/-- C9 at concrete inputs: the encoded head for 256 decodes back to value
256 with the whole 3-byte head consumed, and the emitted head for 300 is
no longer than the 3-byte `ai = 25` head form that can represent 300. -/
theorem c9_witness :
    (getHead ⟨encodeHead 0 256, 0⟩).2.2.2 = 256 ∧
    (getHead ⟨encodeHead 0 256, 0⟩).1 = ⟨encodeHead 0 256, (encodeHead 0 256).length⟩ ∧
    (encodeHead 0 300).length ≤ 1 + headExtra 25 :=
  ⟨(c9_minimal_head_width.2.1 0 256 (by norm_num) (by norm_num)).2.1,
   (c9_minimal_head_width.2.1 0 256 (by norm_num) (by norm_num)).2.2,
   c9_minimal_head_width.2.2 0 300 25 (by norm_num)
     (fun h => absurd h (by norm_num)) (fun h => absurd h (by norm_num))
     (fun _ => by norm_num) (fun _ => by norm_num) (fun _ => by norm_num)⟩

/-- C1: the decode entry point consults the structural well-formedness
pass before any materialization: whenever `valid` rejects the input, the
decode returns exactly that error and the target is returned unchanged;
truncated input is rejected for every profile; an array or map whose
element count exceeds the profile's limit is rejected with the matching
limit error, as is nesting beyond `maxNestedLevels`; and only when `valid`
accepts does the decode materialize, via `decodeItem` and `parseToValue`. -/
theorem c1_validation_gate :
    (∀ (dm : DecMode) (data : List Nat) (t : GoType) (inner : GoValue) (e : DecError),
       valid dm data = some e →
       value dm data (.ptrV t (some inner)) = (.ptrV t (some inner), some e)) ∧
    (∀ (dm : DecMode), valid dm [24] = some (.wellformed .truncated)) ∧
    (∀ (dm : DecMode) (n : Nat), n ≤ 23 → dm.maxArrayElements < n →
       valid dm (encodeHead 4 n) = some (.wellformed .maxArrayExceeded)) ∧
    (∀ (dm : DecMode) (n : Nat), n ≤ 23 → dm.maxMapPairs < n →
       valid dm (encodeHead 5 n) = some (.wellformed .maxMapExceeded)) ∧
    valid { defaultDecMode with maxNestedLevels := 4 } [129, 129, 129, 129, 129, 0]
      = some (.wellformed .maxDepthExceeded) ∧
    (∀ (dm : DecMode) (data : List Nat) (t : GoType) (inner : GoValue),
       valid dm data = none →
       value dm data (.ptrV t (some inner))
         = match decodeItem ⟨data, 0⟩ (2 * data.length + 4) with
           | none => (.ptrV t (some inner), some (.wellformed .truncated))
           | some (item, _) =>
               (.ptrV t (some (parseToValue dm item inner).1), (parseToValue dm item inner).2)) := by
  refine ⟨?_, ?_, ?_, ?_, by decide, ?_⟩
  · intro dm data t inner e hv
    simp [value, hv]
  · intro dm
    rw [valid]
    have hfuel : 2 * List.length [24] + 4 = 5 + 1 := by simp
    rw [hfuel, wellformedItem]
    simp [byteAt, headExtra]
  · intro dm n hn hlim
    have e : encodeHead 4 n = [4 * 32 + n] := by
      rw [encodeHead]
      rw [if_pos (by omega)]
    rw [valid, e]
    have hfuel : 2 * List.length [4 * 32 + n] + 4 = 5 + 1 := by simp
    rw [hfuel, wellformedItem]
    have hai : (4 * 32 + n) % 32 = n := by omega
    have hmj : (4 * 32 + n) / 32 = 4 := by omega
    simp [byteAt, hai, hmj, headExtra, headVal, show ¬(28 ≤ n ∧ n ≤ 30) by omega,
      show n ≠ 31 by omega, show n < 24 by omega, hlim]
  · intro dm n hn hlim
    have e : encodeHead 5 n = [5 * 32 + n] := by
      rw [encodeHead]
      rw [if_pos (by omega)]
    rw [valid, e]
    have hfuel : 2 * List.length [5 * 32 + n] + 4 = 5 + 1 := by simp
    rw [hfuel, wellformedItem]
    have hai : (5 * 32 + n) % 32 = n := by omega
    have hmj : (5 * 32 + n) / 32 = 5 := by omega
    simp [byteAt, hai, hmj, headExtra, headVal, show ¬(28 ≤ n ∧ n ≤ 30) by omega,
      show n ≠ 31 by omega, show n < 24 by omega, hlim]
  · intro dm data t inner hv
    simp only [value]
    rw [hv]

/-- C1 at concrete inputs: the truncated input 0x18 leaves a `*uint64`
target untouched and reports the well-formedness error; a 17-element
array or map head under a 16-element limit is rejected with the matching
limit error; and the well-formed input 0x07 decodes into the same target,
which shows the gate only blocks invalid input. -/
theorem c1_witness :
    value defaultDecMode [24] (.ptrV .uint64T (some (.uintV 0)))
      = (.ptrV .uint64T (some (.uintV 0)), some (.wellformed .truncated)) ∧
    valid { defaultDecMode with maxArrayElements := 16 } (encodeHead 4 17)
      = some (.wellformed .maxArrayExceeded) ∧
    valid { defaultDecMode with maxMapPairs := 16 } (encodeHead 5 17)
      = some (.wellformed .maxMapExceeded) ∧
    value defaultDecMode [7] (.ptrV .uint64T (some (.uintV 0)))
      = (.ptrV .uint64T (some (.uintV 7)), none) := by
  refine ⟨?_, ?_, ?_, ?_⟩
  · exact c1_validation_gate.1 defaultDecMode [24] .uint64T (.uintV 0)
      (.wellformed .truncated) (by decide)
  · exact c1_validation_gate.2.2.1 { defaultDecMode with maxArrayElements := 16 } 17
      (by norm_num) (by norm_num)
  · exact c1_validation_gate.2.2.2.1 { defaultDecMode with maxMapPairs := 16 } 17
      (by norm_num) (by norm_num)
  · refine (c1_validation_gate.2.2.2.2.2 defaultDecMode [7] .uint64T (.uintV 0) (by decide)).trans ?_
    have hd : decodeItem ⟨[7], 0⟩ (2 * List.length [7] + 4) = some (.uint 7, ⟨[7], 1⟩) := by decide
    rw [hd]
    have hp : parseToValue defaultDecMode (.uint 7) (.uintV 0) = (.uintV 7, none) := by
      simp [parseToValue, parseToValueRest, parseToValueMain, derefChain, fillPositiveInt,
        CborItem.isNil, strip55799]
    simp [hp]

end Cbor
